import Mathlib

/-!
# Dummy controller: one reconciliation pass over a versioned object store

A shallow embedding of `controllers/dummy_controller.go` and
`controllers/pod_definition.go`.

* Go values become Lean structures, an `(x, error)` return becomes `Except GoError x`.
* The API server reached through `client.Client` becomes an explicit `Store` value that
  every call takes and returns.  The store keeps a schedule of injected failures (what a
  concurrent writer or the network may do to a call) and a log of the calls made, so that
  statements about "which calls a pass issues" are statements about data.
* `os.LookupEnv` becomes a lookup function passed to `imageForPod`.
-/

namespace DummyController

/-! ## Errors -/

/-- Reason carried by an API status error (`metav1.StatusReason`), as far as the pass can
tell them apart; every other failure of a call (timeouts, unavailability, rejected writes)
is `Other`. -/
inductive StatusReason
  | NotFound
  | Conflict
  | AlreadyExists
  | Other (reason : String)
deriving DecidableEq, Repr

/-- A Go `error` value: a status error coming from the store, a message built with
`fmt.Errorf`, or a message wrapping a cause with `%w`. -/
inductive GoError
  | status (reason : StatusReason)
  | errorf (text : String)
  | wrapped (text : String) (cause : GoError)
deriving DecidableEq, Repr

/-- `errors.IsNotFound` of apimachinery: the reason of the error, looked up through
wrapping, is `NotFound`. -/
def IsNotFound : GoError → Bool
  | .status .NotFound => true
  | .status _ => false
  | .errorf _ => false
  | .wrapped _ cause => IsNotFound cause

/-! ## Object model -/

/-- `types.NamespacedName`. -/
structure NamespacedName where
  Namespace : String
  Name : String
deriving DecidableEq, Repr

structure DummySpec where
  Message : String
deriving DecidableEq, Repr

structure DummyStatus where
  SpecEcho : String
  PodStatus : String
deriving DecidableEq, Repr

/-- Modelled from the spec: the `Dummy` API type (package `api/v1alpha1`) is not among the
sources.  It carries the fields the controller reads and writes: identity, the version
token of the store, the deletion marker, the finalizer set, `spec.message` and the status
pair `specEcho`, `podStatus` (a `corev1.PodPhase`, a string). -/
structure Dummy where
  Namespace : String
  Name : String
  UID : String
  ResourceVersion : Nat
  DeletionTimestamp : Option Nat
  Finalizers : List String
  Spec : DummySpec
  Status : DummyStatus
deriving DecidableEq, Repr

/-- `metav1.OwnerReference`. -/
structure OwnerReference where
  APIVersion : String
  Kind : String
  Name : String
  UID : String
  Controller : Bool
  BlockOwnerDeletion : Bool
deriving DecidableEq, Repr

/-- `corev1.Container`, the three fields the builder sets. -/
structure Container where
  Name : String
  Image : String
  ImagePullPolicy : String
deriving DecidableEq, Repr

/-- `corev1.Pod`: identity, labels (in the order of the map literal), owner references,
containers and the observed `status.phase`. -/
structure Pod where
  Namespace : String
  Name : String
  Labels : List (String × String)
  OwnerReferences : List OwnerReference
  Containers : List Container
  Phase : String
deriving DecidableEq, Repr

def Dummy.key (d : Dummy) : NamespacedName := ⟨d.Namespace, d.Name⟩

def Pod.key (p : Pod) : NamespacedName := ⟨p.Namespace, p.Name⟩

/-- `corev1.PullIfNotPresent`. -/
def PullIfNotPresent : String := "IfNotPresent"

/-! ## controllerutil (controller-runtime) -/

def dummyFinalizer : String := "dummy/finalizer"

/-- `controllerutil.ContainsFinalizer`. -/
def ContainsFinalizer (o : Dummy) (finalizer : String) : Bool :=
  o.Finalizers.any (fun e => e == finalizer)

/-- `controllerutil.AddFinalizer`: appends the finalizer unless it is there already;
the boolean tells whether the list was changed. -/
def AddFinalizer (o : Dummy) (finalizer : String) : Bool × Dummy :=
  if o.Finalizers.any (fun e => e == finalizer) then (false, o)
  else (true, { o with Finalizers := o.Finalizers ++ [finalizer] })

/-- `controllerutil.RemoveFinalizer`: drops every occurrence of the finalizer; the boolean
tells whether the list got shorter. -/
def RemoveFinalizer (o : Dummy) (finalizer : String) : Bool × Dummy :=
  let f := o.Finalizers
  let kept := f.filter (fun e => !(e == finalizer))
  (decide (f.length ≠ kept.length), { o with Finalizers := kept })

/-- `schema.GroupVersionKind`. -/
structure GroupVersionKind where
  Group : String
  Version : String
  Kind : String
deriving DecidableEq, Repr

/-- `runtime.Scheme`, as far as the builder uses it: the registered Go types with the
group, version and kind each is registered under. -/
structure Scheme where
  types : List (String × GroupVersionKind)
deriving DecidableEq, Repr

/-- Name under which the `Dummy` Go type is looked up in a scheme. -/
def dummyTypeName : String := "v1alpha1.Dummy"

/-- Group, version and kind that `AddToScheme` of the API package registers for `Dummy`. -/
def dummyGVK : GroupVersionKind := ⟨"dummy.alexxsilvers", "v1alpha1", "Dummy"⟩

/-- `apiutil.GVKForObject` for a `Dummy`. -/
def GVKForDummy (scheme : Scheme) : Except GoError GroupVersionKind :=
  match scheme.types.lookup dummyTypeName with
  | some gvk => .ok gvk
  | none => .error (.errorf "no kind is registered for the type v1alpha1.Dummy")

/-- `controllerutil.SetControllerReference(owner, pod, scheme)`: checks that owner and
pod share a namespace, resolves the kind of the owner in the scheme, refuses a pod that
another controller owns, and writes the controller reference (replacing the reference to
the same owner, appending otherwise). -/
def SetControllerReference (owner : Dummy) (pod : Pod) (scheme : Scheme) : Except GoError Pod :=
  if owner.Namespace ≠ "" ∧ pod.Namespace = "" then
    .error (.errorf "cluster-scoped resource must not have a namespace-scoped owner")
  else if owner.Namespace ≠ "" ∧ owner.Namespace ≠ pod.Namespace then
    .error (.errorf "cross-namespace owner references are disallowed")
  else
    match GVKForDummy scheme with
    | .error err => .error err
    | .ok gvk =>
      let ref : OwnerReference :=
        { APIVersion := gvk.Group ++ "/" ++ gvk.Version, Kind := gvk.Kind, Name := owner.Name,
          UID := owner.UID, Controller := true, BlockOwnerDeletion := true }
      let same : OwnerReference → Bool := fun e =>
        e.APIVersion == ref.APIVersion && e.Kind == ref.Kind && e.Name == ref.Name
      match pod.OwnerReferences.find? (fun e => e.Controller) with
      | some existing =>
        if same existing then
          .ok { pod with OwnerReferences := pod.OwnerReferences.map (fun e => if same e then ref else e) }
        else .error (.errorf "object is already owned by another controller")
      | none =>
        if pod.OwnerReferences.any same then
          .ok { pod with OwnerReferences := pod.OwnerReferences.map (fun e => if same e then ref else e) }
        else .ok { pod with OwnerReferences := pod.OwnerReferences ++ [ref] }

/-! ## pod_definition.go -/

/-- Process environment, as `os.LookupEnv` sees it. -/
abbrev Env := String → Option String

/-- `strings.Split(s, sep)` on the characters of `s`, for a separator of one character:
the pieces between the occurrences of the separator, empty pieces included. -/
def splitChars (sep : Char) : List Char → List (List Char)
  | [] => [[]]
  | c :: cs =>
    if c = sep then [] :: splitChars sep cs
    else
      match splitChars sep cs with
      | [] => [[c]]
      | piece :: rest => (c :: piece) :: rest

/-- `strings.Split(s, ":")`. -/
def SplitColon (s : String) : List String :=
  (splitChars ':' s.data).map String.mk

structure image where
  name : String
  tag : String
  fullImage : String
deriving DecidableEq, Repr

/-- `imageForPod`: reads `POD_IMAGE` and splits it on the colon. -/
def imageForPod (env : Env) : Except GoError image :=
  let imageEnvVar := "POD_IMAGE"
  match env imageEnvVar with
  | none => .error (.errorf "unable to find POD_IMAGE environment variable with the image")
  | some imageStr =>
    match SplitColon imageStr with
    | [name, tag] => .ok { name := name, tag := tag, fullImage := imageStr }
    | _ => .error (.errorf "invalid pod image value")

/-- `labelsForPod`. -/
def labelsForPod (name : String) (image : image) : List (String × String) :=
  [("app.kubernetes.io/name", "Dummy"),
   ("app.kubernetes.io/instance", name),
   ("app.kubernetes.io/version", image.tag),
   ("app.kubernetes.io/part-of", "dummy-operator"),
   ("app.kubernetes.io/created-by", "controller-manager")]

/-- `DummyReconciler`, without the embedded client (the store is passed explicitly). -/
structure DummyReconciler where
  Scheme : Scheme
deriving DecidableEq, Repr

/-- `DummyReconciler.createPodDefinition`. -/
def DummyReconciler.createPodDefinition (r : DummyReconciler) (env : Env) (dummy : Dummy) :
    Except GoError Pod :=
  match imageForPod env with
  | .error err => .error (.wrapped "get image for pod" err)
  | .ok podImage =>
    let labels := labelsForPod dummy.Name podImage
    let pod : Pod :=
      { Name := dummy.Name ++ "-" ++ "pod"
        Namespace := dummy.Namespace
        Labels := labels
        OwnerReferences := []
        Containers :=
          [{ Name := podImage.name, Image := podImage.fullImage, ImagePullPolicy := PullIfNotPresent }]
        Phase := "" }
    match SetControllerReference dummy pod r.Scheme with
    | .error _ => .error (.errorf "set ownerRef for pod")
    | .ok pod1 => .ok pod1

/-! ## The object store -/

/-- A call of the pass on the store. -/
inductive Call
  | getDummy (key : NamespacedName)
  | statusUpdate (obj : Dummy)
  | update (obj : Dummy)
  | getPod (key : NamespacedName)
  | createPod (obj : Pod)
deriving DecidableEq, Repr

/-- A logged call with the error it returned (`none`: the call succeeded). -/
structure Event where
  call : Call
  err : Option GoError
deriving DecidableEq, Repr

/-- Modelled from the spec: the object store behind `client.Client` (section 6 of the
spec: `get`, `update`, `updateStatus`, `create`, version tokens, erasure of a record once
its deletion marker is set and its finalizer set is empty, cascade deletion of owned
objects).  `faults` is the schedule of injected failures: each call consumes its head, and
`some reason` makes that call fail with that reason without touching the objects.  `log`
collects the calls made, oldest first. -/
structure Store where
  dummies : List Dummy
  pods : List Pod
  faults : List (Option StatusReason)
  log : List Event
deriving DecidableEq, Repr

/-- The fault scheduled for the next call, if any. -/
def Store.fault (s : Store) : Option StatusReason :=
  match s.faults with
  | [] => none
  | f :: _ => f

/-- The store with the head of the fault schedule consumed. -/
def Store.pop (s : Store) : Store :=
  { s with faults := s.faults.tail }

/-- Appends a call and its error to the log. -/
def Store.record (s : Store) (c : Call) (e : Option GoError) : Store :=
  { s with log := s.log ++ [⟨c, e⟩] }

def Store.findDummy (s : Store) (key : NamespacedName) : Option Dummy :=
  s.dummies.find? (fun d => d.key = key)

def Store.findPod (s : Store) (key : NamespacedName) : Option Pod :=
  s.pods.find? (fun p => p.key = key)

/-- The pod carries an owner reference to the object with this UID. -/
def Pod.ownedBy (p : Pod) (uid : String) : Bool :=
  p.OwnerReferences.any (fun e => e.UID == uid)

/-- The records with `new` written over the one stored under its key. -/
def putIn (ds : List Dummy) (new : Dummy) : List Dummy :=
  ds.map (fun d => if d.key = new.key then new else d)

/-- The records without the one stored under the key of `d`. -/
def eraseIn (ds : List Dummy) (d : Dummy) : List Dummy :=
  ds.filter (fun x => !(decide (x.key = d.key)))

/-- The pods left by the cascade deletion of `d`: those of its namespace that it owns go. -/
def cascade (pods : List Pod) (d : Dummy) : List Pod :=
  pods.filter (fun p => !(decide (p.Namespace = d.Namespace) && p.ownedBy d.UID))

/-- Writes `new` over the record stored under its key. -/
def Store.putDummy (s : Store) (new : Dummy) : Store :=
  { s with dummies := putIn s.dummies new }

/-- Erases the record of `d` and, by cascade, the pods of its namespace that it owns. -/
def Store.eraseDummy (s : Store) (d : Dummy) : Store :=
  { s with dummies := eraseIn s.dummies d, pods := cascade s.pods d }

/-- Stores a new pod. -/
def Store.addPod (s : Store) (pod : Pod) : Store :=
  { s with pods := s.pods ++ [pod] }

/-- `r.Get(ctx, key, dummy)`. -/
def Store.Get (s : Store) (key : NamespacedName) : Except GoError Dummy × Store :=
  match s.fault with
  | some f => (.error (.status f), s.pop.record (.getDummy key) (some (.status f)))
  | none =>
    match s.findDummy key with
    | none => (.error (.status .NotFound), s.pop.record (.getDummy key) (some (.status .NotFound)))
    | some d => (.ok d, s.pop.record (.getDummy key) none)

/-- `r.Status().Update(ctx, obj)`: writes the status of `obj` over the stored status when
the version of `obj` is the stored one; the stored object gets a new version and is
returned (the client decodes the response into `obj`). -/
def Store.StatusUpdate (s : Store) (obj : Dummy) : Except GoError Dummy × Store :=
  match s.fault with
  | some f => (.error (.status f), s.pop.record (.statusUpdate obj) (some (.status f)))
  | none =>
    match s.findDummy obj.key with
    | none =>
      (.error (.status .NotFound), s.pop.record (.statusUpdate obj) (some (.status .NotFound)))
    | some cur =>
      if cur.ResourceVersion ≠ obj.ResourceVersion then
        (.error (.status .Conflict), s.pop.record (.statusUpdate obj) (some (.status .Conflict)))
      else
        let new : Dummy :=
          { cur with Status := obj.Status, ResourceVersion := cur.ResourceVersion + 1 }
        (.ok new, (s.pop.putDummy new).record (.statusUpdate obj) none)

/-- `r.Update(ctx, obj)`: writes spec and finalizers of `obj` (not the status) when the
version of `obj` is the stored one.  A record whose deletion marker is set and whose
finalizer set became empty is erased, with the pods it owns. -/
def Store.Update (s : Store) (obj : Dummy) : Except GoError Dummy × Store :=
  match s.fault with
  | some f => (.error (.status f), s.pop.record (.update obj) (some (.status f)))
  | none =>
    match s.findDummy obj.key with
    | none => (.error (.status .NotFound), s.pop.record (.update obj) (some (.status .NotFound)))
    | some cur =>
      if cur.ResourceVersion ≠ obj.ResourceVersion then
        (.error (.status .Conflict), s.pop.record (.update obj) (some (.status .Conflict)))
      else
        let new : Dummy :=
          { cur with Spec := obj.Spec, Finalizers := obj.Finalizers,
                     ResourceVersion := cur.ResourceVersion + 1 }
        if new.DeletionTimestamp.isSome ∧ new.Finalizers = [] then
          (.ok new, (s.pop.eraseDummy new).record (.update obj) none)
        else
          (.ok new, (s.pop.putDummy new).record (.update obj) none)

/-- `r.Get(ctx, key, foundPod)`. -/
def Store.GetPod (s : Store) (key : NamespacedName) : Except GoError Pod × Store :=
  match s.fault with
  | some f => (.error (.status f), s.pop.record (.getPod key) (some (.status f)))
  | none =>
    match s.findPod key with
    | none => (.error (.status .NotFound), s.pop.record (.getPod key) (some (.status .NotFound)))
    | some p => (.ok p, s.pop.record (.getPod key) none)

/-- `r.Create(ctx, pod)`: stores the pod unless its key is taken. -/
def Store.Create (s : Store) (pod : Pod) : Except GoError Unit × Store :=
  match s.fault with
  | some f => (.error (.status f), s.pop.record (.createPod pod) (some (.status f)))
  | none =>
    match s.findPod pod.key with
    | some _ =>
      (.error (.status .AlreadyExists),
        s.pop.record (.createPod pod) (some (.status .AlreadyExists)))
    | none => (.ok (), (s.pop.addPod pod).record (.createPod pod) none)

/-! ## dummy_controller.go -/

/-- `ctrl.Result`. -/
structure Result where
  Requeue : Bool := false
  RequeueAfter : Nat := 0
deriving DecidableEq, Repr

/-- What a pass returns, `(ctrl.Result, error)`, and the store it leaves. -/
abbrev Outcome := (Result × Option GoError) × Store

/-- Lines 143-155 of `Reconcile`: build the pod and create it. -/
def Reconcile.createChild (r : DummyReconciler) (env : Env) (dummy : Dummy) (s : Store) :
    Outcome :=
  match r.createPodDefinition env dummy with
  | .error podDefinitionErr => (({}, some podDefinitionErr), s)
  | .ok pod =>
    match s.Create pod with
    | (.error createPodErr, s1) => (({}, some createPodErr), s1)
    | (.ok _, s1) => (({}, none), s1)

/-- Lines 137-169 of `Reconcile`: look the pod up, create it when it is not found, mirror
its phase into `status.podStatus` when it is found. -/
def Reconcile.childSync (r : DummyReconciler) (env : Env) (dummy : Dummy) (s : Store) : Outcome :=
  match s.GetPod { Namespace := dummy.Namespace, Name := dummy.Name } with
  | (.error err, s1) =>
    if IsNotFound err then Reconcile.createChild r env dummy s1
    else (({}, none), s1)
  | (.ok foundPod, s1) =>
    if foundPod.Phase ≠ dummy.Status.PodStatus then
      let dummy1 : Dummy := { dummy with Status := { dummy.Status with PodStatus := foundPod.Phase } }
      match s1.StatusUpdate dummy1 with
      | (.error statusUpdateErr, s2) => (({}, some statusUpdateErr), s2)
      | (.ok _, s2) => (({}, none), s2)
    else (({}, none), s1)

/-- Lines 117-135 of `Reconcile`, then the child step. -/
def Reconcile.deletionBranch (r : DummyReconciler) (env : Env) (dummy : Dummy) (s : Store) :
    Outcome :=
  let toBeDeleted := dummy.DeletionTimestamp.isSome
  if toBeDeleted && ContainsFinalizer dummy dummyFinalizer then
    match RemoveFinalizer dummy dummyFinalizer with
    | (false, _) => (({ Requeue := true }, none), s)
    | (true, dummy1) =>
      match s.Update dummy1 with
      | (.error err, s1) => (({}, some err), s1)
      | (.ok _, s1) => (({}, none), s1)
  else Reconcile.childSync r env dummy s

/-- Lines 102-115 of `Reconcile`, then the deletion branch. -/
def Reconcile.ensureFinalizer (r : DummyReconciler) (env : Env) (dummy : Dummy) (s : Store) :
    Outcome :=
  if !ContainsFinalizer dummy dummyFinalizer then
    match AddFinalizer dummy dummyFinalizer with
    | (false, _) => (({ Requeue := true }, none), s)
    | (true, dummy1) =>
      match s.Update dummy1 with
      | (.error updateErr, s1) => (({}, some updateErr), s1)
      | (.ok dummy2, s1) => Reconcile.deletionBranch r env dummy2 s1
  else Reconcile.deletionBranch r env dummy s

/-- `DummyReconciler.Reconcile`: one pass for the key `req`. -/
def Reconcile (r : DummyReconciler) (env : Env) (req : NamespacedName) (s : Store) : Outcome :=
  match s.Get req with
  | (.error err, s1) =>
    if IsNotFound err then (({}, none), s1) else (({}, some err), s1)
  | (.ok dummy, s1) =>
    if dummy.Status.SpecEcho ≠ dummy.Spec.Message then
      let dummy1 : Dummy := { dummy with Status := { dummy.Status with SpecEcho := dummy.Spec.Message } }
      match s1.StatusUpdate dummy1 with
      | (.error statusUpdateErr, s2) => (({}, some statusUpdateErr), s2)
      | (.ok _, s2) =>
        match s2.Get req with
        | (.error err, s3) =>
          if IsNotFound err then (({}, none), s3) else (({}, some err), s3)
        | (.ok dummy2, s3) => Reconcile.ensureFinalizer r env dummy2 s3
    else Reconcile.ensureFinalizer r env dummy s1

/-- The calls logged between two stores of one run. -/
def passLog (before after : Store) : List Event :=
  after.log.drop before.log.length

/-- The error of a call, `none` when it succeeded. -/
def errOf {α : Type} : Except GoError α → Option GoError
  | .ok _ => none
  | .error e => some e


/-! ## Reading the log, and what a call leaves behind -/

/-- The controller reference `SetControllerReference` writes for the owner `d`. -/
def controllerRef (gvk : GroupVersionKind) (d : Dummy) : OwnerReference :=
  { APIVersion := gvk.Group ++ "/" ++ gvk.Version, Kind := gvk.Kind, Name := d.Name,
    UID := d.UID, Controller := true, BlockOwnerDeletion := true }

/-- The pod `createPodDefinition` builds for `d` from a resolved image and kind. -/
def podFor (d : Dummy) (img : image) (gvk : GroupVersionKind) : Pod :=
  { Name := d.Name ++ "-" ++ "pod"
    Namespace := d.Namespace
    Labels := labelsForPod d.Name img
    OwnerReferences := [controllerRef gvk d]
    Containers := [{ Name := img.name, Image := img.fullImage, ImagePullPolicy := PullIfNotPresent }]
    Phase := "" }

/-- The call changes the store when it succeeds. -/
def Call.isMutation : Call → Bool
  | .statusUpdate _ => true
  | .update _ => true
  | .createPod _ => true
  | _ => false

/-- The key of the pod a call reads or creates. -/
def Call.podKey : Call → Option NamespacedName
  | .getPod key => some key
  | .createPod obj => some obj.key
  | _ => none

/-- The call writes the Dummy. -/
def Call.isWrite : Call → Bool
  | .statusUpdate _ => true
  | .update _ => true
  | _ => false

/-- The store a call leaves behind: the given objects, one fault consumed, the call
logged with its error. -/
def Store.after (s : Store) (c : Call) (err : Option GoError) (ds : List Dummy)
    (ps : List Pod) : Store :=
  { dummies := ds, pods := ps, faults := s.faults.tail, log := s.log ++ [⟨c, err⟩] }

/-- A written Dummy whose record the store erases: deletion marker set, no finalizer left. -/
def Dummy.erased (d : Dummy) : Prop :=
  d.DeletionTimestamp.isSome = true ∧ d.Finalizers = []

instance (d : Dummy) : Decidable d.erased := by
  unfold Dummy.erased
  infer_instance

/-- The records a status write leaves, from its result. -/
def dummiesAfterStatus (ds : List Dummy) (res : Except GoError Dummy) : List Dummy :=
  match res with
  | .ok d => putIn ds d
  | .error _ => ds

/-- The records an update leaves, from its result. -/
def dummiesAfterUpdate (ds : List Dummy) (res : Except GoError Dummy) : List Dummy :=
  match res with
  | .ok d => if d.erased then eraseIn ds d else putIn ds d
  | .error _ => ds

/-- The pods an update leaves, from its result. -/
def podsAfterUpdate (ps : List Pod) (res : Except GoError Dummy) : List Pod :=
  match res with
  | .ok d => if d.erased then cascade ps d else ps
  | .error _ => ps

/-- The pods a create leaves, from its result. -/
def podsAfterCreate (ps : List Pod) (pod : Pod) (res : Except GoError Unit) : List Pod :=
  match res with
  | .ok _ => ps ++ [pod]
  | .error _ => ps

/-- The record stored under a key. -/
def findIn (ds : List Dummy) (key : NamespacedName) : Option Dummy :=
  ds.find? (fun d => d.key = key)

/-- The pod stored under a key. -/
def findPodIn (ps : List Pod) (key : NamespacedName) : Option Pod :=
  ps.find? (fun p => p.key = key)

/-- The record a status write stores: the stored record with the new status and the next
version. -/
def Dummy.statusWritten (cur : Dummy) (st : DummyStatus) : Dummy :=
  { cur with Status := st, ResourceVersion := cur.ResourceVersion + 1 }

/-- The record an update stores: the stored record with spec and finalizers of `obj` and the
next version. -/
def Dummy.updatedFrom (cur obj : Dummy) : Dummy :=
  { cur with Spec := obj.Spec, Finalizers := obj.Finalizers,
             ResourceVersion := cur.ResourceVersion + 1 }

/-- The object of the echo write (line 80): the message copied into `status.specEcho`. -/
def Dummy.echoObj (d : Dummy) : Dummy :=
  { d with Status := { d.Status with SpecEcho := d.Spec.Message } }

/-- The Dummy as the store holds it after the echo write. -/
def Dummy.echoed (d : Dummy) : Dummy := d.statusWritten d.echoObj.Status

/-- The object of the update that adds the finalizer (line 105). -/
def Dummy.addObj (d : Dummy) : Dummy :=
  { d with Finalizers := d.Finalizers ++ [dummyFinalizer] }

/-- The Dummy as the store holds it after the finalizer was added. -/
def Dummy.added (d : Dummy) : Dummy := d.updatedFrom d.addObj

/-- The object of the update that removes the finalizer (line 124). -/
def Dummy.removeObj (d : Dummy) : Dummy :=
  { d with Finalizers := d.Finalizers.filter (fun e => !(e == dummyFinalizer)) }

/-- The Dummy as the store writes it when the finalizer is removed. -/
def Dummy.removed (d : Dummy) : Dummy := d.updatedFrom d.removeObj

/-- The object of the write that mirrors the phase of the pod (line 160). -/
def Dummy.mirrorObj (d : Dummy) (phase : String) : Dummy :=
  { d with Status := { d.Status with PodStatus := phase } }

/-- The Dummy as the store holds it after the phase was mirrored. -/
def Dummy.mirrored (d : Dummy) (phase : String) : Dummy :=
  d.statusWritten (d.mirrorObj phase).Status

/-- The key under which the pass looks the pod of a Dummy up (line 139). -/
def Dummy.lookupKey (d : Dummy) : NamespacedName :=
  { Namespace := d.Namespace, Name := d.Name }

/-- No failure is scheduled: the store answers every call from its objects. -/
def Store.quiet (s : Store) : Prop := ∀ f ∈ s.faults, f = none

instance (s : Store) : Decidable s.quiet := by
  unfold Store.quiet
  infer_instance

/-- A pass that ends in its first three steps (fetch, echo, finalizer) on a failed call. -/
structure EarlyExit (s : Store) (out : Outcome) : Prop where
  noisy : ¬ s.quiet
  pods : out.2.pods = s.pods
  log : ∃ l, out.2.log = s.log ++ l ∧ ∀ ev ∈ l, ev.call.podKey = none

/-- The Dummy `D` held by the pass and the store `S` after the first three steps (fetch,
echo, finalizer) went through, for the Dummy `d` stored under `req` in `s`. -/
structure Prepared (s : Store) (req : NamespacedName) (d D : Dummy) (S : Store) : Prop where
  sync : findIn S.dummies req = some D
  key : D.key = req
  ident : D.Namespace = d.Namespace ∧ D.Name = d.Name ∧ D.UID = d.UID
  deletion : D.DeletionTimestamp = d.DeletionTimestamp
  spec : D.Spec = d.Spec
  echo : D.Status.SpecEcho = d.Spec.Message
  podStatus : D.Status.PodStatus = d.Status.PodStatus
  token : ContainsFinalizer D dummyFinalizer = true
  finalizers : D.Finalizers =
    if ContainsFinalizer d dummyFinalizer then d.Finalizers
    else d.Finalizers ++ [dummyFinalizer]
  pods : S.pods = s.pods
  log : ∃ l, S.log = s.log ++ l ∧ ∀ ev ∈ l, ev.err = none ∧ ev.call.podKey = none
  faults : ∃ n, S.faults = s.faults.drop n

/-- The Dummy `D` held by the pass and the store `S` after the first two steps (fetch, echo)
went through, for the Dummy `d` stored under `req` in `s`. -/
structure Fetched (s : Store) (req : NamespacedName) (d D : Dummy) (S : Store) : Prop where
  sync : findIn S.dummies req = some D
  key : D.key = req
  ident : D.Namespace = d.Namespace ∧ D.Name = d.Name ∧ D.UID = d.UID
  deletion : D.DeletionTimestamp = d.DeletionTimestamp
  spec : D.Spec = d.Spec
  echo : D.Status.SpecEcho = d.Spec.Message
  podStatus : D.Status.PodStatus = d.Status.PodStatus
  finalizers : D.Finalizers = d.Finalizers
  pods : S.pods = s.pods
  log : ∃ l, S.log = s.log ++ l ∧ ∀ ev ∈ l, ev.err = none ∧ ev.call.podKey = none
  faults : ∃ n, S.faults = s.faults.drop n


/-- The pod `createPodDefinition` builds for `d` from the image `i`, before the owner
reference is attached (lines 22-38 of `pod_definition.go`). -/
def podDraft (d : Dummy) (i : image) : Pod :=
  { Name := d.Name ++ "-" ++ "pod"
    Namespace := d.Namespace
    Labels := labelsForPod d.Name i
    OwnerReferences := []
    Containers := [{ Name := i.name, Image := i.fullImage, ImagePullPolicy := PullIfNotPresent }]
    Phase := "" }

/-- The call fetches the Dummy. -/
def Call.isFetch : Call → Bool
  | .getDummy _ => true
  | _ => false

/-- The Dummy without its version token. -/
def Dummy.unversioned (d : Dummy) : Dummy := { d with ResourceVersion := 0 }

/-- The store with a schedule under which a pass is cut off after `n` calls: the first `n`
calls go through, the next one fails on the way to the store, which leaves the objects as
they are and ends the pass. -/
def Store.cutAfter (s : Store) (n : Nat) : Store :=
  { s with faults := List.replicate n none ++ [some (.Other "cut off")] }

/-- The store as a later pass finds it: the objects as they were left, no failure
scheduled, an empty log. -/
def Store.restarted (s : Store) : Store :=
  { dummies := s.dummies, pods := s.pods, faults := [], log := [] }

/-- The store a pass over `s` leaves when it is cut off after `n` calls, as the next pass
finds it. -/
def cutOff (r : DummyReconciler) (env : Env) (req : NamespacedName) (s : Store) (n : Nat) :
    Store :=
  (Reconcile r env req (s.cutAfter n)).2.restarted

/-- What a pass returns is plain: no requeue, with or without an error. -/
def Outcome.plain (out : Outcome) : Prop :=
  out.1 = ({ Requeue := false }, none) ∨ ∃ e, out.1 = ({ Requeue := false }, some e)

/-! ## Fixtures for the concrete runs -/

/-- An environment whose only variable is `POD_IMAGE`, with the given value if any. -/
def envOf (v : Option String) : Env := fun k => if k = "POD_IMAGE" then v else none

/-- A reconciler whose scheme has the `Dummy` type registered. -/
def reconcilerOK : DummyReconciler := ⟨⟨[(dummyTypeName, dummyGVK)]⟩⟩

def envOK : Env := envOf (some "busybox:1.36")

def keyX : NamespacedName := ⟨"ns", "x"⟩

/-- A Dummy `ns/x` as a user creates it: no status, no finalizer. -/
def dummyFresh : Dummy :=
  { Namespace := "ns", Name := "x", UID := "u1", ResourceVersion := 1,
    DeletionTimestamp := none, Finalizers := [],
    Spec := { Message := "hello" }, Status := { SpecEcho := "", PodStatus := "" } }

/-- The Dummy `ns/x` after the controller has echoed its message and added its finalizer. -/
def dummySettled : Dummy :=
  { Namespace := "ns", Name := "x", UID := "u1", ResourceVersion := 3,
    DeletionTimestamp := none, Finalizers := [dummyFinalizer],
    Spec := { Message := "hello" }, Status := { SpecEcho := "hello", PodStatus := "" } }

/-- A pod of namespace `ns` with the given name and phase, owned by the Dummy `u1`. -/
def podNamed (name phase : String) : Pod :=
  { Namespace := "ns", Name := name, Labels := [],
    OwnerReferences :=
      [{ APIVersion := "dummy.alexxsilvers/v1alpha1", Kind := "Dummy", Name := "x", UID := "u1",
         Controller := true, BlockOwnerDeletion := true }],
    Containers := [{ Name := "busybox", Image := "busybox:1.36", ImagePullPolicy := PullIfNotPresent }],
    Phase := phase }

/-- The fresh Dummy alone in the store; the second call (the status write) is scheduled to
fail with a version conflict. -/
def storeConflict : Store :=
  { dummies := [dummyFresh], pods := [], faults := [none, some .Conflict], log := [] }

/-- The settled Dummy alone in the store; the second call (the pod lookup) is scheduled to
fail with a server error. -/
def storeLookupFails : Store :=
  { dummies := [dummySettled], pods := [],
    faults := [none, some (.Other "InternalError")], log := [] }

/-- The settled Dummy with its child `x-pod` running, next to a pod named `x` that is
pending; no failure is scheduled. -/
def storeTwoPods : Store :=
  { dummies := [dummySettled], pods := [podNamed "x" "Pending", podNamed "x-pod" "Running"],
    faults := [], log := [] }

/-- The status write of the first pass over the fresh Dummy: the message echoed. -/
def echoWrite : Call :=
  .statusUpdate { dummyFresh with Status := { SpecEcho := "hello", PodStatus := "" } }

/-- The settled Dummy alone in the store, no failure scheduled. -/
def storeSettled : Store :=
  { dummies := [dummySettled], pods := [], faults := [], log := [] }

/-- The error of `imageForPod` when `POD_IMAGE` is not set. -/
def errNoImage : GoError :=
  .errorf "unable to find POD_IMAGE environment variable with the image"

/-- The settled Dummy `ns/x` with its deletion marker set; another controller holds a
finalizer of its own. -/
def dummyDeleting : Dummy :=
  { dummySettled with DeletionTimestamp := some 100,
                      Finalizers := ["other/finalizer", dummyFinalizer] }

/-- The deleting Dummy alone in the store, no failure scheduled. -/
def storeDeleting : Store :=
  { dummies := [dummyDeleting], pods := [], faults := [], log := [] }

/-- The settled Dummy and a running pod stored under the name `x`, the name the pass looks
up; no failure scheduled. -/
def storeLookedUp : Store :=
  { dummies := [dummySettled], pods := [podNamed "x" "Running"], faults := [], log := [] }

/-- The fresh Dummy alone in the store, no failure scheduled. -/
def storeFresh : Store :=
  { dummies := [dummyFresh], pods := [], faults := [], log := [] }

/-- A reconciler whose scheme has no type registered. -/
def reconcilerNoScheme : DummyReconciler := ⟨⟨[]⟩⟩

/-- The image `busybox:1.36`, resolved. -/
def imageOK : image := { name := "busybox", tag := "1.36", fullImage := "busybox:1.36" }

/-- The empty store, no failure scheduled. -/
def storeEmpty : Store := { dummies := [], pods := [], faults := [], log := [] }

/-- The fresh Dummy alone in the store; the third call (the fetch after the echo write) is
scheduled to report `NotFound`. -/
def storeRefetchNotFound : Store :=
  { dummies := [dummyFresh], pods := [], faults := [none, none, some .NotFound], log := [] }

/-- The deleting Dummy after the controller has removed its finalizer: the finalizer of the
other controller keeps it in the store. -/
def dummyReleased : Dummy :=
  { dummyDeleting with ResourceVersion := 4, Finalizers := ["other/finalizer"] }

/-- The fresh Dummy and a running pod stored under the name `x`, the name the pass looks
up; no failure scheduled. -/
def storeFreshLookedUp : Store :=
  { dummies := [dummyFresh], pods := [podNamed "x" "Running"], faults := [], log := [] }

/-- The settled Dummy `ns/x` with its deletion marker set, kept in the store by the
finalizer of another controller; the controller's own finalizer is gone. -/
def dummyHeld : Dummy :=
  { dummySettled with DeletionTimestamp := some 100, Finalizers := ["other/finalizer"] }

/-- The held Dummy and its pod, no failure scheduled. -/
def storeHeld : Store :=
  { dummies := [dummyHeld], pods := [podNamed "x-pod" "Running"], faults := [], log := [] }

/-! ## Theorems: the image resolver -/

theorem splitChars_ne_nil (sep : Char) (l : List Char) : splitChars sep l ≠ [] := by
  induction l with
  | nil => simp [splitChars]
  | cons c cs ih =>
    unfold splitChars
    split
    · simp
    · split <;> simp

theorem splitChars_length (sep : Char) (l : List Char) :
    (splitChars sep l).length = l.count sep + 1 := by
  induction l with
  | nil => simp [splitChars]
  | cons c cs ih =>
    unfold splitChars
    by_cases h : c = sep
    · subst h
      simp [ih]
    · have hne : (c == sep) = false := by simpa using h
      rw [if_neg h, List.count_cons, hne]
      cases hs : splitChars sep cs with
      | nil => exact absurd hs (splitChars_ne_nil sep cs)
      | cons p rest =>
        rw [hs] at ih
        simpa using ih

theorem splitChars_one (sep : Char) (l b : List Char) (h : splitChars sep l = [b]) :
    l = b ∧ sep ∉ b := by
  induction l generalizing b with
  | nil =>
    simp [splitChars] at h
    subst h
    simp
  | cons c cs ih =>
    unfold splitChars at h
    by_cases hc : c = sep
    · rw [if_pos hc] at h
      simp at h
      exact absurd h.2 (splitChars_ne_nil sep cs)
    · rw [if_neg hc] at h
      cases hs : splitChars sep cs with
      | nil => exact absurd hs (splitChars_ne_nil sep cs)
      | cons p rest =>
        rw [hs] at h
        simp at h
        obtain ⟨h1, h2⟩ := h
        subst h2
        have := ih p hs
        subst h1
        refine ⟨by rw [this.1], ?_⟩
        simp
        exact ⟨fun e => hc e.symm, this.2⟩

theorem splitChars_two (sep : Char) (l a b : List Char) (h : splitChars sep l = [a, b]) :
    l = a ++ sep :: b ∧ sep ∉ a ∧ sep ∉ b := by
  induction l generalizing a with
  | nil => simp [splitChars] at h
  | cons c cs ih =>
    unfold splitChars at h
    by_cases hc : c = sep
    · rw [if_pos hc] at h
      simp at h
      obtain ⟨h1, h2⟩ := h
      have := splitChars_one sep cs b h2
      subst h1
      subst hc
      simp [this.1, this.2]
    · rw [if_neg hc] at h
      cases hs : splitChars sep cs with
      | nil => exact absurd hs (splitChars_ne_nil sep cs)
      | cons p rest =>
        rw [hs] at h
        simp at h
        obtain ⟨h1, h2⟩ := h
        subst h2
        have := ih p hs
        subst h1
        refine ⟨by rw [this.1]; simp, ?_, this.2.2⟩
        simp
        exact ⟨fun e => hc e.symm, this.2.1⟩

theorem SplitColon_length (v : String) : (SplitColon v).length = v.data.count ':' + 1 := by
  simp [SplitColon, splitChars_length]

theorem imageForPod_ok_iff (env : Env) (img : image) :
    imageForPod env = .ok img ↔
      ∃ v a b, env "POD_IMAGE" = some v ∧ splitChars ':' v.data = [a, b] ∧
        img = { name := String.mk a, tag := String.mk b, fullImage := v } := by
  unfold imageForPod
  simp only
  cases hv : env "POD_IMAGE" with
  | none => simp
  | some v =>
    simp only [SplitColon]
    rcases hs : splitChars ':' v.data with _ | ⟨a, _ | ⟨b, _ | ⟨c, rest⟩⟩⟩
    · simp [hs]
    · simp [hs]
    · simp only [hs, List.map_cons, List.map_nil, Except.ok.injEq, Option.some.injEq]
      constructor
      · rintro rfl
        exact ⟨v, a, b, rfl, hs, rfl⟩
      · rintro ⟨w, x, y, rfl, hxy, rfl⟩
        rw [hs] at hxy
        simp at hxy
        simp [hxy]
    · simp [hs]


theorem imageForPod_ok_iff_count (env : Env) :
    (∃ img, imageForPod env = .ok img) ↔
      ∃ v, env "POD_IMAGE" = some v ∧ v.data.count ':' = 1 := by
  constructor
  · rintro ⟨img, h⟩
    obtain ⟨v, a, b, hv, hs, -⟩ := (imageForPod_ok_iff env img).1 h
    refine ⟨v, hv, ?_⟩
    have := splitChars_length ':' v.data
    rw [hs] at this
    simpa using this.symm
  · rintro ⟨v, hv, hc⟩
    have hl := splitChars_length ':' v.data
    rw [hc] at hl
    rcases hs : splitChars ':' v.data with _ | ⟨a, _ | ⟨b, _ | ⟨c, rest⟩⟩⟩
    · simp [hs] at hl
    · simp [hs] at hl
    · exact ⟨_, (imageForPod_ok_iff env _).2 ⟨v, a, b, hv, hs, rfl⟩⟩
    · simp [hs] at hl

theorem imageForPod_error_iff_not_ok (env : Env) :
    (∃ e, imageForPod env = .error e) ↔ ¬ ∃ img, imageForPod env = .ok img := by
  cases h : imageForPod env <;> simp

/-- C8: `imageForPod` fails exactly when `POD_IMAGE` is absent or its value does not split
on the colon into exactly two parts, which is to say that the value does not hold exactly
one colon; it succeeds exactly on the present values with one colon. -/
theorem imageForPod_fails_iff (env : Env) :
    ((∃ e, imageForPod env = .error e) ↔
        (env "POD_IMAGE" = none ∨ ∃ v, env "POD_IMAGE" = some v ∧ (SplitColon v).length ≠ 2)) ∧
    ((∃ e, imageForPod env = .error e) ↔
        (env "POD_IMAGE" = none ∨ ∃ v, env "POD_IMAGE" = some v ∧ v.data.count ':' ≠ 1)) ∧
    ((∃ img, imageForPod env = .ok img) ↔
        ∃ v, env "POD_IMAGE" = some v ∧ v.data.count ':' = 1) := by
  have hcount : (∃ e, imageForPod env = .error e) ↔
      (env "POD_IMAGE" = none ∨ ∃ v, env "POD_IMAGE" = some v ∧ v.data.count ':' ≠ 1) := by
    rw [imageForPod_error_iff_not_ok, imageForPod_ok_iff_count]
    cases hv : env "POD_IMAGE" <;> simp
  refine ⟨?_, hcount, imageForPod_ok_iff_count env⟩
  rw [hcount]
  simp [SplitColon_length]

/-- C9: when `imageForPod` succeeds on the configured value `s`, the full image is `s`
itself, name, colon and tag put together give `s` back, and neither the name nor the tag
holds a colon. -/
theorem imageForPod_ok_shape (env : Env) (s : String) (img : image)
    (hs : env "POD_IMAGE" = some s) (h : imageForPod env = .ok img) :
    img.fullImage = s ∧ img.name ++ ":" ++ img.tag = s ∧
      ':' ∉ img.name.data ∧ ':' ∉ img.tag.data := by
  obtain ⟨v, a, b, hv, hab, rfl⟩ := (imageForPod_ok_iff env img).1 h
  rw [hs] at hv
  cases hv
  obtain ⟨hl, ha, hb⟩ := splitChars_two ':' s.data a b hab
  refine ⟨rfl, ?_, ha, hb⟩
  apply String.ext
  simp [hl]


theorem imageForPod_ok_shape_witness :
    envOf (some "busybox:1.36") "POD_IMAGE" = some "busybox:1.36" ∧
    imageForPod (envOf (some "busybox:1.36")) =
      .ok { name := "busybox", tag := "1.36", fullImage := "busybox:1.36" } ∧
    ((image.mk "busybox" "1.36" "busybox:1.36").fullImage = "busybox:1.36" ∧
      (image.mk "busybox" "1.36" "busybox:1.36").name ++ ":" ++
        (image.mk "busybox" "1.36" "busybox:1.36").tag = "busybox:1.36" ∧
      ':' ∉ (image.mk "busybox" "1.36" "busybox:1.36").name.data ∧
      ':' ∉ (image.mk "busybox" "1.36" "busybox:1.36").tag.data) :=
  ⟨by decide, by rfl,
    imageForPod_ok_shape (envOf (some "busybox:1.36")) "busybox:1.36" _ (by decide) (by rfl)⟩


/-! ## Theorems: a store call as a result and a store -/

theorem pair_eq_iff {α : Type} {f : α × Store} {g : α → Store} (hsnd : f.2 = g f.1)
    {res : α} {s1 : Store} : f = (res, s1) ↔ f.1 = res ∧ s1 = g res := by
  constructor
  · intro h
    subst h
    exact ⟨rfl, hsnd⟩
  · rintro ⟨h1, h2⟩
    subst h1
    exact Prod.ext rfl (by rw [h2]; exact hsnd)

theorem Store.Get_snd (s : Store) (key : NamespacedName) :
    (s.Get key).2 = s.after (.getDummy key) (errOf (s.Get key).1) s.dummies s.pods := by
  unfold Store.Get
  split
  · rfl
  · split <;> rfl

theorem Store.GetPod_snd (s : Store) (key : NamespacedName) :
    (s.GetPod key).2 = s.after (.getPod key) (errOf (s.GetPod key).1) s.dummies s.pods := by
  unfold Store.GetPod
  split
  · rfl
  · split <;> rfl

theorem Store.Create_snd (s : Store) (pod : Pod) :
    (s.Create pod).2 =
      s.after (.createPod pod) (errOf (s.Create pod).1) s.dummies
        (podsAfterCreate s.pods pod (s.Create pod).1) := by
  unfold Store.Create
  split
  · rfl
  · split <;> rfl

theorem Store.StatusUpdate_snd (s : Store) (obj : Dummy) :
    (s.StatusUpdate obj).2 =
      s.after (.statusUpdate obj) (errOf (s.StatusUpdate obj).1)
        (dummiesAfterStatus s.dummies (s.StatusUpdate obj).1) s.pods := by
  unfold Store.StatusUpdate
  split
  · rfl
  · split
    · rfl
    · split <;> rfl

theorem Store.Update_snd (s : Store) (obj : Dummy) :
    (s.Update obj).2 =
      s.after (.update obj) (errOf (s.Update obj).1)
        (dummiesAfterUpdate s.dummies (s.Update obj).1)
        (podsAfterUpdate s.pods (s.Update obj).1) := by
  unfold Store.Update
  split
  · rfl
  · split
    · rfl
    · split
      · rfl
      · simp only
        split
        · rename_i h
          simp [Store.after, Store.record, Store.pop, Store.eraseDummy, errOf,
            dummiesAfterUpdate, podsAfterUpdate, Dummy.erased, h]
        · rename_i h
          simp [Store.after, Store.record, Store.pop, Store.putDummy, errOf,
            dummiesAfterUpdate, podsAfterUpdate, Dummy.erased, h]

theorem Store.Get_eq {s s1 : Store} {key : NamespacedName} {res : Except GoError Dummy} :
    s.Get key = (res, s1) ↔
      (s.Get key).1 = res ∧ s1 = s.after (.getDummy key) (errOf res) s.dummies s.pods :=
  pair_eq_iff (g := fun x => s.after (.getDummy key) (errOf x) s.dummies s.pods)
    (Store.Get_snd s key)

theorem Store.GetPod_eq {s s1 : Store} {key : NamespacedName} {res : Except GoError Pod} :
    s.GetPod key = (res, s1) ↔
      (s.GetPod key).1 = res ∧ s1 = s.after (.getPod key) (errOf res) s.dummies s.pods :=
  pair_eq_iff (g := fun x => s.after (.getPod key) (errOf x) s.dummies s.pods)
    (Store.GetPod_snd s key)

theorem Store.Create_eq {s s1 : Store} {pod : Pod} {res : Except GoError Unit} :
    s.Create pod = (res, s1) ↔
      (s.Create pod).1 = res ∧
        s1 = s.after (.createPod pod) (errOf res) s.dummies (podsAfterCreate s.pods pod res) :=
  pair_eq_iff
    (g := fun x => s.after (.createPod pod) (errOf x) s.dummies (podsAfterCreate s.pods pod x))
    (Store.Create_snd s pod)

theorem Store.StatusUpdate_eq {s s1 : Store} {obj : Dummy} {res : Except GoError Dummy} :
    s.StatusUpdate obj = (res, s1) ↔
      (s.StatusUpdate obj).1 = res ∧
        s1 = s.after (.statusUpdate obj) (errOf res) (dummiesAfterStatus s.dummies res) s.pods :=
  pair_eq_iff
    (g := fun x => s.after (.statusUpdate obj) (errOf x) (dummiesAfterStatus s.dummies x) s.pods)
    (Store.StatusUpdate_snd s obj)

theorem Store.Update_eq {s s1 : Store} {obj : Dummy} {res : Except GoError Dummy} :
    s.Update obj = (res, s1) ↔
      (s.Update obj).1 = res ∧
        s1 = s.after (.update obj) (errOf res) (dummiesAfterUpdate s.dummies res)
          (podsAfterUpdate s.pods res) :=
  pair_eq_iff
    (g := fun x => s.after (.update obj) (errOf x) (dummiesAfterUpdate s.dummies x)
      (podsAfterUpdate s.pods x))
    (Store.Update_snd s obj)

/-! ### When a call succeeds -/

theorem Store.Get_ok_raw {s : Store} {key : NamespacedName} {d : Dummy} :
    (s.Get key).1 = .ok d ↔ s.fault = none ∧ s.findDummy key = some d := by
  unfold Store.Get
  split
  · simp [*]
  · split <;> simp [*]

theorem Store.Get_error {s : Store} {key : NamespacedName} {e : GoError} :
    (s.Get key).1 = .error e ↔
      (∃ f, s.fault = some f ∧ e = .status f) ∨
      (s.fault = none ∧ s.findDummy key = none ∧ e = .status .NotFound) := by
  unfold Store.Get
  split
  · simp [*, eq_comm]
  · split <;> simp [*, eq_comm]

theorem Store.GetPod_ok_raw {s : Store} {key : NamespacedName} {p : Pod} :
    (s.GetPod key).1 = .ok p ↔ s.fault = none ∧ s.findPod key = some p := by
  unfold Store.GetPod
  split
  · simp [*]
  · split <;> simp [*]

theorem Store.GetPod_error {s : Store} {key : NamespacedName} {e : GoError} :
    (s.GetPod key).1 = .error e ↔
      (∃ f, s.fault = some f ∧ e = .status f) ∨
      (s.fault = none ∧ s.findPod key = none ∧ e = .status .NotFound) := by
  unfold Store.GetPod
  split
  · simp [*, eq_comm]
  · split <;> simp [*, eq_comm]

theorem Store.Create_ok_raw {s : Store} {pod : Pod} {u : Unit} :
    (s.Create pod).1 = .ok u ↔ s.fault = none ∧ s.findPod pod.key = none := by
  unfold Store.Create
  split
  · simp [*]
  · split <;> simp [*]

theorem Store.StatusUpdate_ok_raw {s : Store} {obj d : Dummy} :
    (s.StatusUpdate obj).1 = .ok d ↔
      s.fault = none ∧ ∃ cur, s.findDummy obj.key = some cur ∧
        cur.ResourceVersion = obj.ResourceVersion ∧
        d = { cur with Status := obj.Status, ResourceVersion := cur.ResourceVersion + 1 } := by
  unfold Store.StatusUpdate
  split
  · simp [*]
  · split
    · simp [*]
    · rename_i cur hcur
      split
      · rename_i hrv
        simp only [reduceCtorEq, false_iff, not_and, not_exists]
        intro _ x hx h1
        rw [hcur] at hx
        cases hx
        exact absurd h1 hrv
      · rename_i hrv
        simp only [ne_eq, not_not] at hrv
        simp only [Except.ok.injEq]
        constructor
        · intro h
          exact ⟨by assumption, cur, hcur, hrv, h.symm⟩
        · rintro ⟨-, x, hx, -, h⟩
          rw [hcur] at hx
          cases hx
          exact h.symm

theorem Store.Update_ok_raw {s : Store} {obj d : Dummy} :
    (s.Update obj).1 = .ok d ↔
      s.fault = none ∧ ∃ cur, s.findDummy obj.key = some cur ∧
        cur.ResourceVersion = obj.ResourceVersion ∧
        d = { cur with Spec := obj.Spec, Finalizers := obj.Finalizers,
                       ResourceVersion := cur.ResourceVersion + 1 } := by
  unfold Store.Update
  split
  · simp [*]
  · split
    · simp [*]
    · rename_i cur hcur
      split
      · rename_i hrv
        simp only [reduceCtorEq, false_iff, not_and, not_exists]
        intro _ x hx h1
        rw [hcur] at hx
        cases hx
        exact absurd h1 hrv
      · rename_i hrv
        simp only [ne_eq, not_not] at hrv
        have hfst : ∀ (c : Prop) [Decidable c] (a : Dummy) (x y : Store),
            (if c then (Except.ok a, x) else ((Except.ok a, y) : Except GoError Dummy × Store)).1
              = Except.ok a := by
          intro c _ a x y
          split <;> rfl
        simp only [hfst, Except.ok.injEq]
        constructor
        · intro h
          exact ⟨by assumption, cur, hcur, hrv, h.symm⟩
        · rintro ⟨-, x, hx, -, h⟩
          rw [hcur] at hx
          cases hx
          exact h.symm

/-! ### Projections of the store a call leaves -/

theorem Store.after_log (s : Store) (c : Call) (e : Option GoError) (ds : List Dummy)
    (ps : List Pod) : (s.after c e ds ps).log = s.log ++ [⟨c, e⟩] := rfl

theorem Store.after_pods (s : Store) (c : Call) (e : Option GoError) (ds : List Dummy)
    (ps : List Pod) : (s.after c e ds ps).pods = ps := rfl

theorem Store.after_dummies (s : Store) (c : Call) (e : Option GoError) (ds : List Dummy)
    (ps : List Pod) : (s.after c e ds ps).dummies = ds := rfl

theorem Store.after_faults (s : Store) (c : Call) (e : Option GoError) (ds : List Dummy)
    (ps : List Pod) : (s.after c e ds ps).faults = s.faults.tail := rfl

theorem Store.after_findDummy (s : Store) (c : Call) (e : Option GoError) (ds : List Dummy)
    (ps : List Pod) (key : NamespacedName) :
    (s.after c e ds ps).findDummy key = findIn ds key := rfl

theorem Store.after_findPod (s : Store) (c : Call) (e : Option GoError) (ds : List Dummy)
    (ps : List Pod) (key : NamespacedName) :
    (s.after c e ds ps).findPod key = findPodIn ps key := rfl

/-! ### The finalizer helpers -/

theorem filter_length_ne_iff (l : List String) (f : String) :
    l.length ≠ (l.filter (fun e => !(e == f))).length ↔ l.any (fun e => e == f) = true := by
  induction l with
  | nil => simp
  | cons x xs ih =>
    by_cases hx : x = f
    · subst hx
      simp
      have := List.length_filter_le (fun e => !(e == x)) xs
      omega
    · have hne : (x == f) = false := by simpa using hx
      simp [List.filter_cons, hne]
      simpa using ih

theorem AddFinalizer_eq {o o1 : Dummy} {f : String} {b : Bool} :
    AddFinalizer o f = (b, o1) ↔
      b = !ContainsFinalizer o f ∧
      o1 = if ContainsFinalizer o f then o else { o with Finalizers := o.Finalizers ++ [f] } := by
  unfold AddFinalizer ContainsFinalizer
  split
  · rename_i h
    simp only [h, Prod.mk.injEq, Bool.not_true, if_true]
    constructor
    · rintro ⟨h1, h2⟩
      exact ⟨h1.symm, h2.symm⟩
    · rintro ⟨h1, h2⟩
      exact ⟨h1.symm, h2.symm⟩
  · rename_i h
    simp only [Bool.not_eq_true] at h
    simp only [h, Prod.mk.injEq, Bool.not_false, Bool.false_eq_true, if_false]
    constructor
    · rintro ⟨h1, h2⟩
      exact ⟨h1.symm, h2.symm⟩
    · rintro ⟨h1, h2⟩
      exact ⟨h1.symm, h2.symm⟩

theorem RemoveFinalizer_eq {o o1 : Dummy} {f : String} {b : Bool} :
    RemoveFinalizer o f = (b, o1) ↔
      b = ContainsFinalizer o f ∧
      o1 = { o with Finalizers := o.Finalizers.filter (fun e => !(e == f)) } := by
  unfold RemoveFinalizer ContainsFinalizer
  simp only [Prod.mk.injEq]
  have := filter_length_ne_iff o.Finalizers f
  constructor
  · rintro ⟨h1, h2⟩
    refine ⟨?_, h2.symm⟩
    rw [← h1]
    by_cases hc : o.Finalizers.any (fun e => e == f) = true
    · simp [hc, this.2 hc]
    · have : ¬ (o.Finalizers.length ≠ (o.Finalizers.filter (fun e => !(e == f))).length) :=
        fun h => hc (this.1 h)
      simp only [Bool.not_eq_true] at hc
      simp [hc, this]
  · rintro ⟨h1, h2⟩
    refine ⟨?_, h2.symm⟩
    rw [h1]
    by_cases hc : o.Finalizers.any (fun e => e == f) = true
    · simp [hc, this.2 hc]
    · have : ¬ (o.Finalizers.length ≠ (o.Finalizers.filter (fun e => !(e == f))).length) :=
        fun h => hc (this.1 h)
      simp only [Bool.not_eq_true] at hc
      simp [hc, this]

/-! ### Lookups in the stored objects -/

theorem Store.findDummy_eq (s : Store) (key : NamespacedName) :
    s.findDummy key = findIn s.dummies key := rfl

theorem Store.findPod_eq (s : Store) (key : NamespacedName) :
    s.findPod key = findPodIn s.pods key := rfl

theorem findIn_key {ds : List Dummy} {k : NamespacedName} {d : Dummy}
    (h : findIn ds k = some d) : d.key = k := by
  have := List.find?_some h
  simpa using this

theorem findPodIn_key {ps : List Pod} {k : NamespacedName} {p : Pod}
    (h : findPodIn ps k = some p) : p.key = k := by
  have := List.find?_some h
  simpa using this

theorem findIn_putIn (ds : List Dummy) (new : Dummy) (k : NamespacedName) :
    findIn (putIn ds new) k =
      if k = new.key then (findIn ds k).map (fun _ => new) else findIn ds k := by
  induction ds with
  | nil => simp [findIn, putIn]
  | cons x xs ih =>
    simp only [findIn, putIn] at ih ⊢
    by_cases hk : k = new.key
    · subst hk
      simp only [if_true] at ih ⊢
      by_cases hx : x.key = new.key
      · simp [List.find?_cons, hx]
      · simp [List.find?_cons, hx, ih]
    · simp only [if_neg hk] at ih ⊢
      by_cases hx : x.key = new.key
      · have : ¬ new.key = k := fun e => hk e.symm
        simp [List.find?_cons, hx, this, ih]
      · simp [List.find?_cons, hx, ih]

theorem findIn_eraseIn (ds : List Dummy) (d : Dummy) (k : NamespacedName) :
    findIn (eraseIn ds d) k = if k = d.key then none else findIn ds k := by
  induction ds with
  | nil => simp [findIn, eraseIn]
  | cons x xs ih =>
    simp only [findIn, eraseIn] at ih ⊢
    by_cases hx : x.key = d.key
    · simp only [List.filter_cons, hx, decide_True, Bool.not_true, Bool.false_eq_true, if_false,
        List.find?_cons]
      rw [ih]
      by_cases hk : k = d.key
      · simp [hk]
      · have : ¬ d.key = k := fun e => hk e.symm
        simp [hk, this]
    · simp only [List.filter_cons, hx, decide_False, Bool.not_false, if_true, List.find?_cons]
      by_cases hxk : x.key = k
      · have : ¬ k = d.key := fun e => hx (hxk.trans e)
        simp [hxk, this]
      · simp [hxk, ih]

theorem findPodIn_append (ps : List Pod) (p : Pod) (k : NamespacedName) :
    findPodIn (ps ++ [p]) k =
      (findPodIn ps k).or (if p.key = k then some p else none) := by
  simp only [findPodIn, List.find?_append, List.find?_cons, List.find?_nil]
  by_cases h : p.key = k <;> simp [h]

/-! ### Success of a call, in terms of the stored objects -/

theorem Store.Get_ok {s : Store} {key : NamespacedName} {d : Dummy} :
    (s.Get key).1 = .ok d ↔ s.fault = none ∧ findIn s.dummies key = some d ∧ d.key = key := by
  rw [Store.Get_ok_raw, Store.findDummy_eq]
  constructor
  · rintro ⟨h1, h2⟩
    exact ⟨h1, h2, findIn_key h2⟩
  · rintro ⟨h1, h2, -⟩
    exact ⟨h1, h2⟩

theorem Store.GetPod_ok {s : Store} {key : NamespacedName} {p : Pod} :
    (s.GetPod key).1 = .ok p ↔
      s.fault = none ∧ findPodIn s.pods key = some p ∧ p.key = key := by
  rw [Store.GetPod_ok_raw, Store.findPod_eq]
  constructor
  · rintro ⟨h1, h2⟩
    exact ⟨h1, h2, findPodIn_key h2⟩
  · rintro ⟨h1, h2, -⟩
    exact ⟨h1, h2⟩

theorem Store.Create_ok {s : Store} {pod : Pod} {u : Unit} :
    (s.Create pod).1 = .ok u ↔ s.fault = none ∧ findPodIn s.pods pod.key = none := by
  rw [Store.Create_ok_raw, Store.findPod_eq]

theorem Store.StatusUpdate_ok {s : Store} {obj d : Dummy} :
    (s.StatusUpdate obj).1 = .ok d ↔
      s.fault = none ∧ ∃ cur, findIn s.dummies obj.key = some cur ∧ cur.key = obj.key ∧
        cur.ResourceVersion = obj.ResourceVersion ∧
        d = { cur with Status := obj.Status, ResourceVersion := cur.ResourceVersion + 1 } := by
  rw [Store.StatusUpdate_ok_raw, Store.findDummy_eq]
  constructor
  · rintro ⟨h1, cur, h2, h3, h4⟩
    exact ⟨h1, cur, h2, findIn_key h2, h3, h4⟩
  · rintro ⟨h1, cur, h2, -, h3, h4⟩
    exact ⟨h1, cur, h2, h3, h4⟩

theorem Store.Update_ok {s : Store} {obj d : Dummy} :
    (s.Update obj).1 = .ok d ↔
      s.fault = none ∧ ∃ cur, findIn s.dummies obj.key = some cur ∧ cur.key = obj.key ∧
        cur.ResourceVersion = obj.ResourceVersion ∧
        d = { cur with Spec := obj.Spec, Finalizers := obj.Finalizers,
                       ResourceVersion := cur.ResourceVersion + 1 } := by
  rw [Store.Update_ok_raw, Store.findDummy_eq]
  constructor
  · rintro ⟨h1, cur, h2, h3, h4⟩
    exact ⟨h1, cur, h2, findIn_key h2, h3, h4⟩
  · rintro ⟨h1, cur, h2, -, h3, h4⟩
    exact ⟨h1, cur, h2, h3, h4⟩

/-! ### A call on a store whose objects are known -/

theorem Store.Get_fault {s : Store} {f : StatusReason} (key : NamespacedName)
    (hf : s.fault = some f) :
    s.Get key =
      (.error (.status f), s.after (.getDummy key) (some (.status f)) s.dummies s.pods) := by
  simp only [Store.Get, hf]
  rfl

theorem Store.Get_found {s : Store} {key : NamespacedName} {d : Dummy}
    (hf : s.fault = none) (hd : findIn s.dummies key = some d) :
    s.Get key = (.ok d, s.after (.getDummy key) none s.dummies s.pods) := by
  rw [← Store.findDummy_eq] at hd
  simp only [Store.Get, hf, hd]
  rfl

theorem Store.Get_missing {s : Store} {key : NamespacedName}
    (hf : s.fault = none) (hd : findIn s.dummies key = none) :
    s.Get key =
      (.error (.status .NotFound),
        s.after (.getDummy key) (some (.status .NotFound)) s.dummies s.pods) := by
  rw [← Store.findDummy_eq] at hd
  simp only [Store.Get, hf, hd]
  rfl

theorem Store.GetPod_fault {s : Store} {f : StatusReason} (key : NamespacedName)
    (hf : s.fault = some f) :
    s.GetPod key =
      (.error (.status f), s.after (.getPod key) (some (.status f)) s.dummies s.pods) := by
  simp only [Store.GetPod, hf]
  rfl

theorem Store.GetPod_found {s : Store} {key : NamespacedName} {p : Pod}
    (hf : s.fault = none) (hp : findPodIn s.pods key = some p) :
    s.GetPod key = (.ok p, s.after (.getPod key) none s.dummies s.pods) := by
  rw [← Store.findPod_eq] at hp
  simp only [Store.GetPod, hf, hp]
  rfl

theorem Store.GetPod_missing {s : Store} {key : NamespacedName}
    (hf : s.fault = none) (hp : findPodIn s.pods key = none) :
    s.GetPod key =
      (.error (.status .NotFound),
        s.after (.getPod key) (some (.status .NotFound)) s.dummies s.pods) := by
  rw [← Store.findPod_eq] at hp
  simp only [Store.GetPod, hf, hp]
  rfl

theorem Store.Create_fault {s : Store} {f : StatusReason} (pod : Pod)
    (hf : s.fault = some f) :
    s.Create pod =
      (.error (.status f), s.after (.createPod pod) (some (.status f)) s.dummies s.pods) := by
  simp only [Store.Create, hf]
  rfl

theorem Store.Create_exists {s : Store} {pod p : Pod}
    (hf : s.fault = none) (hp : findPodIn s.pods pod.key = some p) :
    s.Create pod =
      (.error (.status .AlreadyExists),
        s.after (.createPod pod) (some (.status .AlreadyExists)) s.dummies s.pods) := by
  rw [← Store.findPod_eq] at hp
  simp only [Store.Create, hf, hp]
  rfl

theorem Store.Create_fresh {s : Store} {pod : Pod}
    (hf : s.fault = none) (hp : findPodIn s.pods pod.key = none) :
    s.Create pod =
      (.ok (), s.after (.createPod pod) none s.dummies (s.pods ++ [pod])) := by
  rw [← Store.findPod_eq] at hp
  simp only [Store.Create, hf, hp]
  rfl

theorem Store.StatusUpdate_fault {s : Store} {f : StatusReason} (obj : Dummy)
    (hf : s.fault = some f) :
    s.StatusUpdate obj =
      (.error (.status f), s.after (.statusUpdate obj) (some (.status f)) s.dummies s.pods) := by
  simp only [Store.StatusUpdate, hf]
  rfl

theorem Store.StatusUpdate_synced {s : Store} {obj cur : Dummy}
    (hf : s.fault = none) (hcur : findIn s.dummies obj.key = some cur)
    (hrv : cur.ResourceVersion = obj.ResourceVersion) :
    s.StatusUpdate obj =
      (.ok (cur.statusWritten obj.Status),
        s.after (.statusUpdate obj) none (putIn s.dummies (cur.statusWritten obj.Status))
          s.pods) := by
  have h1 := Store.StatusUpdate_snd s obj
  have h2 : (s.StatusUpdate obj).1 = .ok (cur.statusWritten obj.Status) :=
    Store.StatusUpdate_ok_raw.2 ⟨hf, cur, (by rw [Store.findDummy_eq]; exact hcur), hrv, rfl⟩
  rw [h2] at h1
  exact Prod.ext h2 h1

theorem Store.Update_fault {s : Store} {f : StatusReason} (obj : Dummy)
    (hf : s.fault = some f) :
    s.Update obj =
      (.error (.status f), s.after (.update obj) (some (.status f)) s.dummies s.pods) := by
  simp only [Store.Update, hf]
  rfl

theorem Store.Update_synced {s : Store} {obj cur : Dummy}
    (hf : s.fault = none) (hcur : findIn s.dummies obj.key = some cur)
    (hrv : cur.ResourceVersion = obj.ResourceVersion) :
    s.Update obj =
      (.ok (cur.updatedFrom obj),
        s.after (.update obj) none (dummiesAfterUpdate s.dummies (.ok (cur.updatedFrom obj)))
          (podsAfterUpdate s.pods (.ok (cur.updatedFrom obj)))) := by
  have h1 := Store.Update_snd s obj
  have h2 : (s.Update obj).1 = .ok (cur.updatedFrom obj) :=
    Store.Update_ok_raw.2 ⟨hf, cur, (by rw [Store.findDummy_eq]; exact hcur), hrv, rfl⟩
  rw [h2] at h1
  exact Prod.ext h2 h1

/-! ## Theorems: the steps of a pass on a store whose objects are known -/

section steps

variable (r : DummyReconciler) (env : Env)

theorem createChild_definition_error {d : Dummy} {s : Store} {e : GoError}
    (h : r.createPodDefinition env d = .error e) :
    Reconcile.createChild r env d s = (({}, some e), s) := by
  simp only [Reconcile.createChild, h]

theorem createChild_fault {d : Dummy} {s : Store} {pod : Pod} {f : StatusReason}
    (h : r.createPodDefinition env d = .ok pod) (hf : s.fault = some f) :
    Reconcile.createChild r env d s =
      (({}, some (.status f)),
        s.after (.createPod pod) (some (.status f)) s.dummies s.pods) := by
  simp only [Reconcile.createChild, h, Store.Create_fault pod hf]

theorem createChild_exists {d : Dummy} {s : Store} {pod p : Pod}
    (h : r.createPodDefinition env d = .ok pod) (hf : s.fault = none)
    (hp : findPodIn s.pods pod.key = some p) :
    Reconcile.createChild r env d s =
      (({}, some (.status .AlreadyExists)),
        s.after (.createPod pod) (some (.status .AlreadyExists)) s.dummies s.pods) := by
  simp only [Reconcile.createChild, h, Store.Create_exists hf hp]

theorem createChild_fresh {d : Dummy} {s : Store} {pod : Pod}
    (h : r.createPodDefinition env d = .ok pod) (hf : s.fault = none)
    (hp : findPodIn s.pods pod.key = none) :
    Reconcile.createChild r env d s =
      (({}, none), s.after (.createPod pod) none s.dummies (s.pods ++ [pod])) := by
  simp only [Reconcile.createChild, h, Store.Create_fresh hf hp]

theorem childSync_fault {d : Dummy} {s : Store} {f : StatusReason} (hf : s.fault = some f) :
    Reconcile.childSync r env d s =
      if IsNotFound (.status f) then
        Reconcile.createChild r env d
          (s.after (.getPod d.lookupKey) (some (.status f)) s.dummies s.pods)
      else
        (({}, none), s.after (.getPod d.lookupKey) (some (.status f)) s.dummies s.pods) := by
  simp only [Reconcile.childSync, Store.GetPod_fault _ hf, Dummy.lookupKey]

theorem childSync_missing {d : Dummy} {s : Store} (hf : s.fault = none)
    (hp : findPodIn s.pods d.lookupKey = none) :
    Reconcile.childSync r env d s =
      Reconcile.createChild r env d
        (s.after (.getPod d.lookupKey) (some (.status .NotFound)) s.dummies s.pods) := by
  simp only [Reconcile.childSync]
  rw [show ({ Namespace := d.Namespace, Name := d.Name } : NamespacedName) = d.lookupKey from rfl,
    Store.GetPod_missing hf hp]
  simp [IsNotFound]

theorem childSync_in_sync {d : Dummy} {s : Store} {p : Pod} (hf : s.fault = none)
    (hp : findPodIn s.pods d.lookupKey = some p) (hph : p.Phase = d.Status.PodStatus) :
    Reconcile.childSync r env d s =
      (({}, none), s.after (.getPod d.lookupKey) none s.dummies s.pods) := by
  simp only [Reconcile.childSync]
  rw [show ({ Namespace := d.Namespace, Name := d.Name } : NamespacedName) = d.lookupKey from rfl,
    Store.GetPod_found hf hp]
  simp [hph]

theorem childSync_mirror_fault {d : Dummy} {s : Store} {p : Pod} {f : StatusReason}
    (hf : s.fault = none) (hp : findPodIn s.pods d.lookupKey = some p)
    (hph : p.Phase ≠ d.Status.PodStatus)
    (hf2 : (s.after (.getPod d.lookupKey) none s.dummies s.pods).fault = some f) :
    Reconcile.childSync r env d s =
      (({}, some (.status f)),
        (s.after (.getPod d.lookupKey) none s.dummies s.pods).after
          (.statusUpdate (d.mirrorObj p.Phase)) (some (.status f)) s.dummies s.pods) := by
  simp only [Reconcile.childSync]
  rw [show ({ Namespace := d.Namespace, Name := d.Name } : NamespacedName) = d.lookupKey from rfl,
    Store.GetPod_found hf hp]
  simp only [ne_eq, hph, not_false_eq_true, if_true]
  rw [show ({ d with Status := { d.Status with PodStatus := p.Phase } } : Dummy)
    = d.mirrorObj p.Phase from rfl, Store.StatusUpdate_fault _ hf2]
  rfl

theorem childSync_mirror {d : Dummy} {s : Store} {p : Pod}
    (hf : s.fault = none) (hp : findPodIn s.pods d.lookupKey = some p)
    (hph : p.Phase ≠ d.Status.PodStatus)
    (hf2 : (s.after (.getPod d.lookupKey) none s.dummies s.pods).fault = none)
    (hsync : findIn s.dummies d.key = some d) :
    Reconcile.childSync r env d s =
      (({}, none),
        (s.after (.getPod d.lookupKey) none s.dummies s.pods).after
          (.statusUpdate (d.mirrorObj p.Phase)) none (putIn s.dummies (d.mirrored p.Phase))
          s.pods) := by
  simp only [Reconcile.childSync]
  rw [show ({ Namespace := d.Namespace, Name := d.Name } : NamespacedName) = d.lookupKey from rfl,
    Store.GetPod_found hf hp]
  simp only [ne_eq, hph, not_false_eq_true, if_true]
  rw [show ({ d with Status := { d.Status with PodStatus := p.Phase } } : Dummy)
    = d.mirrorObj p.Phase from rfl,
    @Store.StatusUpdate_synced _ (d.mirrorObj p.Phase) d hf2 hsync rfl]
  rfl

theorem deletionBranch_live {d : Dummy} {s : Store}
    (h : ¬ (d.DeletionTimestamp.isSome = true ∧ ContainsFinalizer d dummyFinalizer = true)) :
    Reconcile.deletionBranch r env d s = Reconcile.childSync r env d s := by
  simp only [Reconcile.deletionBranch, Bool.and_eq_true, h, if_false]

theorem RemoveFinalizer_of_contains {d : Dummy}
    (htok : ContainsFinalizer d dummyFinalizer = true) :
    RemoveFinalizer d dummyFinalizer = (true, d.removeObj) :=
  RemoveFinalizer_eq.2 ⟨htok.symm, rfl⟩

theorem AddFinalizer_of_not_contains {d : Dummy}
    (htok : ContainsFinalizer d dummyFinalizer = false) :
    AddFinalizer d dummyFinalizer = (true, d.addObj) :=
  AddFinalizer_eq.2 ⟨by simp [htok], by simp [htok, Dummy.addObj]⟩

theorem deletionBranch_fault {d : Dummy} {s : Store} {f : StatusReason}
    (hdel : d.DeletionTimestamp.isSome = true)
    (htok : ContainsFinalizer d dummyFinalizer = true) (hf : s.fault = some f) :
    Reconcile.deletionBranch r env d s =
      (({}, some (.status f)),
        s.after (.update d.removeObj) (some (.status f)) s.dummies s.pods) := by
  simp only [Reconcile.deletionBranch, hdel, htok, Bool.and_self, if_true,
    RemoveFinalizer_of_contains htok, Store.Update_fault _ hf]

theorem deletionBranch_removed {d : Dummy} {s : Store}
    (hdel : d.DeletionTimestamp.isSome = true)
    (htok : ContainsFinalizer d dummyFinalizer = true) (hf : s.fault = none)
    (hsync : findIn s.dummies d.key = some d) :
    Reconcile.deletionBranch r env d s =
      (({}, none),
        s.after (.update d.removeObj) none (dummiesAfterUpdate s.dummies (.ok d.removed))
          (podsAfterUpdate s.pods (.ok d.removed))) := by
  simp only [Reconcile.deletionBranch, hdel, htok, Bool.and_self, if_true,
    RemoveFinalizer_of_contains htok]
  rw [@Store.Update_synced _ d.removeObj d hf hsync rfl]
  rfl

theorem ensureFinalizer_present {d : Dummy} {s : Store}
    (htok : ContainsFinalizer d dummyFinalizer = true) :
    Reconcile.ensureFinalizer r env d s = Reconcile.deletionBranch r env d s := by
  simp only [Reconcile.ensureFinalizer, htok, Bool.not_true, Bool.false_eq_true, if_false]

theorem ensureFinalizer_fault {d : Dummy} {s : Store} {f : StatusReason}
    (htok : ContainsFinalizer d dummyFinalizer = false) (hf : s.fault = some f) :
    Reconcile.ensureFinalizer r env d s =
      (({}, some (.status f)),
        s.after (.update d.addObj) (some (.status f)) s.dummies s.pods) := by
  simp only [Reconcile.ensureFinalizer, htok, Bool.not_false, if_true,
    AddFinalizer_of_not_contains htok, Store.Update_fault _ hf]

theorem added_not_erased (d : Dummy) : ¬ d.added.erased := by
  simp [Dummy.erased, Dummy.added, Dummy.updatedFrom, Dummy.addObj]

theorem ensureFinalizer_added {d : Dummy} {s : Store}
    (htok : ContainsFinalizer d dummyFinalizer = false) (hf : s.fault = none)
    (hsync : findIn s.dummies d.key = some d) :
    Reconcile.ensureFinalizer r env d s =
      Reconcile.deletionBranch r env d.added
        (s.after (.update d.addObj) none (putIn s.dummies d.added) s.pods) := by
  simp only [Reconcile.ensureFinalizer, htok, Bool.not_false, if_true,
    AddFinalizer_of_not_contains htok]
  rw [@Store.Update_synced _ d.addObj d hf hsync rfl,
    show d.updatedFrom d.addObj = d.added from rfl]
  simp only [dummiesAfterUpdate, podsAfterUpdate, added_not_erased d, if_false]

theorem Reconcile_fault {req : NamespacedName} {s : Store} {f : StatusReason}
    (hf : s.fault = some f) :
    Reconcile r env req s =
      if IsNotFound (.status f) then
        (({}, none), s.after (.getDummy req) (some (.status f)) s.dummies s.pods)
      else
        (({}, some (.status f)),
          s.after (.getDummy req) (some (.status f)) s.dummies s.pods) := by
  simp only [Reconcile, Store.Get_fault _ hf]

theorem Reconcile_missing {req : NamespacedName} {s : Store}
    (hf : s.fault = none) (hd : findIn s.dummies req = none) :
    Reconcile r env req s =
      (({}, none), s.after (.getDummy req) (some (.status .NotFound)) s.dummies s.pods) := by
  simp only [Reconcile, Store.Get_missing hf hd, IsNotFound, if_true]

theorem Reconcile_in_sync {req : NamespacedName} {s : Store} {d : Dummy}
    (hf : s.fault = none) (hd : findIn s.dummies req = some d)
    (hecho : d.Status.SpecEcho = d.Spec.Message) :
    Reconcile r env req s =
      Reconcile.ensureFinalizer r env d (s.after (.getDummy req) none s.dummies s.pods) := by
  simp only [Reconcile, Store.Get_found hf hd, ne_eq, hecho, not_true_eq_false, if_false]

theorem Reconcile_echo_fault {req : NamespacedName} {s : Store} {d : Dummy} {f : StatusReason}
    (hf : s.fault = none) (hd : findIn s.dummies req = some d)
    (hecho : d.Status.SpecEcho ≠ d.Spec.Message)
    (hf2 : (s.after (.getDummy req) none s.dummies s.pods).fault = some f) :
    Reconcile r env req s =
      (({}, some (.status f)),
        (s.after (.getDummy req) none s.dummies s.pods).after (.statusUpdate d.echoObj)
          (some (.status f)) s.dummies s.pods) := by
  simp only [Reconcile, Store.Get_found hf hd, ne_eq, hecho, not_false_eq_true, if_true]
  rw [show ({ d with Status := { d.Status with SpecEcho := d.Spec.Message } } : Dummy)
    = d.echoObj from rfl, Store.StatusUpdate_fault _ hf2]
  rfl

theorem Reconcile_refetch_fault {req : NamespacedName} {s : Store} {d : Dummy}
    {f : StatusReason}
    (hf : s.fault = none) (hd : findIn s.dummies req = some d)
    (hecho : d.Status.SpecEcho ≠ d.Spec.Message)
    (hf2 : (s.after (.getDummy req) none s.dummies s.pods).fault = none)
    (hf3 : ((s.after (.getDummy req) none s.dummies s.pods).after (.statusUpdate d.echoObj)
      none (putIn s.dummies d.echoed) s.pods).fault = some f) :
    Reconcile r env req s =
      if IsNotFound (.status f) then
        (({}, none),
          ((s.after (.getDummy req) none s.dummies s.pods).after (.statusUpdate d.echoObj)
            none (putIn s.dummies d.echoed) s.pods).after (.getDummy req) (some (.status f))
            (putIn s.dummies d.echoed) s.pods)
      else
        (({}, some (.status f)),
          ((s.after (.getDummy req) none s.dummies s.pods).after (.statusUpdate d.echoObj)
            none (putIn s.dummies d.echoed) s.pods).after (.getDummy req) (some (.status f))
            (putIn s.dummies d.echoed) s.pods) := by
  have hk := findIn_key hd
  have hkey : d.echoObj.key = req := hk
  simp only [Reconcile, Store.Get_found hf hd, ne_eq, hecho, not_false_eq_true, if_true]
  rw [show ({ d with Status := { d.Status with SpecEcho := d.Spec.Message } } : Dummy)
    = d.echoObj from rfl,
    @Store.StatusUpdate_synced _ d.echoObj d hf2 (by rw [hkey]; exact hd) rfl]
  simp only [Store.after_dummies, Store.after_pods]
  rw [show d.statusWritten d.echoObj.Status = d.echoed from rfl, Store.Get_fault _ hf3]
  rfl

theorem findIn_putIn_self {ds : List Dummy} {d new : Dummy} {k : NamespacedName}
    (hd : findIn ds k = some d) (hk : new.key = k) : findIn (putIn ds new) k = some new := by
  rw [findIn_putIn, if_pos hk.symm, hd]
  rfl

theorem Reconcile_echoed {req : NamespacedName} {s : Store} {d : Dummy}
    (hf : s.fault = none) (hd : findIn s.dummies req = some d)
    (hecho : d.Status.SpecEcho ≠ d.Spec.Message)
    (hf2 : (s.after (.getDummy req) none s.dummies s.pods).fault = none)
    (hf3 : ((s.after (.getDummy req) none s.dummies s.pods).after (.statusUpdate d.echoObj)
      none (putIn s.dummies d.echoed) s.pods).fault = none) :
    Reconcile r env req s =
      Reconcile.ensureFinalizer r env d.echoed
        (((s.after (.getDummy req) none s.dummies s.pods).after (.statusUpdate d.echoObj)
          none (putIn s.dummies d.echoed) s.pods).after (.getDummy req) none
          (putIn s.dummies d.echoed) s.pods) := by
  have hk := findIn_key hd
  have hkey : d.echoObj.key = req := hk
  have hkey2 : d.echoed.key = req := hk
  simp only [Reconcile, Store.Get_found hf hd, ne_eq, hecho, not_false_eq_true, if_true]
  rw [show ({ d with Status := { d.Status with SpecEcho := d.Spec.Message } } : Dummy)
    = d.echoObj from rfl,
    @Store.StatusUpdate_synced _ d.echoObj d hf2 (by rw [hkey]; exact hd) rfl]
  simp only [Store.after_dummies, Store.after_pods]
  rw [show d.statusWritten d.echoObj.Status = d.echoed from rfl,
    @Store.Get_found _ req d.echoed hf3 (findIn_putIn_self hd hkey2)]
  rfl

end steps

/-! ### Faults, logs and the first three steps -/

theorem Store.fault_cases (s : Store) : s.fault = none ∨ ∃ f, s.fault = some f := by
  cases h : s.fault
  · exact Or.inl rfl
  · exact Or.inr ⟨_, rfl⟩

theorem Store.not_quiet_of_fault {s : Store} {f : StatusReason} (h : s.fault = some f) :
    ¬ s.quiet := by
  intro hq
  unfold Store.fault at h
  split at h
  · cases h
  · rename_i f0 fs hs
    have := hq f0 (by rw [hs]; exact List.mem_cons_self _ _)
    rw [this] at h
    cases h

theorem Store.quiet_fault {s : Store} (h : s.quiet) : s.fault = none := by
  rcases s.fault_cases with hf | ⟨f, hf⟩
  · exact hf
  · exact absurd h (Store.not_quiet_of_fault hf)

theorem Store.quiet_of_drop {s S : Store} (h : s.quiet) (hS : ∃ n, S.faults = s.faults.drop n) :
    S.quiet := by
  obtain ⟨n, hn⟩ := hS
  intro f hf
  rw [hn] at hf
  exact h f (List.mem_of_mem_drop hf)

theorem Store.not_quiet_of_drop {s S : Store} (hS : ∃ n, S.faults = s.faults.drop n)
    (h : ¬ S.quiet) : ¬ s.quiet :=
  fun hq => h (Store.quiet_of_drop hq hS)

theorem Store.drop_refl (s : Store) : ∃ n, s.faults = s.faults.drop n := ⟨0, rfl⟩

theorem Store.after_drop {s S : Store} (h : ∃ n, S.faults = s.faults.drop n) (c : Call)
    (e : Option GoError) (ds : List Dummy) (ps : List Pod) :
    ∃ n, (S.after c e ds ps).faults = s.faults.drop n := by
  obtain ⟨n, hn⟩ := h
  exact ⟨n + 1, by rw [Store.after_faults, hn, List.tail_drop]⟩

/-! ### The first three steps of a pass -/

theorem log_after {s S : Store} {P : Event → Prop}
    (h : ∃ l, S.log = s.log ++ l ∧ ∀ ev ∈ l, P ev) (c : Call) (e : Option GoError)
    (ds : List Dummy) (ps : List Pod) (hP : P ⟨c, e⟩) :
    ∃ l, (S.after c e ds ps).log = s.log ++ l ∧ ∀ ev ∈ l, P ev := by
  obtain ⟨l, hl, hall⟩ := h
  refine ⟨l ++ [⟨c, e⟩], by simp [Store.after_log, hl], ?_⟩
  intro ev hev
  rcases List.mem_append.1 hev with h1 | h1
  · exact hall ev h1
  · rw [List.mem_singleton.1 h1]
    exact hP

theorem log_refl (s : Store) (P : Event → Prop) :
    ∃ l, s.log = s.log ++ l ∧ ∀ ev ∈ l, P ev :=
  ⟨[], by simp, by simp⟩

theorem log_weaken {s S : Store} {P Q : Event → Prop}
    (h : ∃ l, S.log = s.log ++ l ∧ ∀ ev ∈ l, P ev) (hPQ : ∀ ev, P ev → Q ev) :
    ∃ l, S.log = s.log ++ l ∧ ∀ ev ∈ l, Q ev := by
  obtain ⟨l, hl, hall⟩ := h
  exact ⟨l, hl, fun ev hev => hPQ ev (hall ev hev)⟩

theorem EarlyExit.of_store {s S : Store} (res : Result × Option GoError) (hn : ¬ s.quiet)
    (hp : S.pods = s.pods)
    (hl : ∃ l, S.log = s.log ++ l ∧ ∀ ev ∈ l, ev.call.podKey = none) :
    EarlyExit s (res, S) :=
  ⟨hn, hp, hl⟩

theorem ContainsFinalizer_added (d : Dummy) :
    ContainsFinalizer d.added dummyFinalizer = true := by
  simp [ContainsFinalizer, Dummy.added, Dummy.updatedFrom, Dummy.addObj]

theorem ensureFinalizer_prefix (r : DummyReconciler) (env : Env) (req : NamespacedName)
    (s : Store) (d D0 : Dummy) (S0 : Store) (h0 : Fetched s req d D0 S0) :
    EarlyExit s (Reconcile.ensureFinalizer r env D0 S0) ∨
    ∃ D S, Reconcile.ensureFinalizer r env D0 S0 = Reconcile.deletionBranch r env D S ∧
      Prepared s req d D S := by
  have hsync : findIn S0.dummies D0.key = some D0 := by rw [h0.key]; exact h0.sync
  by_cases htok : ContainsFinalizer D0 dummyFinalizer = true
  · refine Or.inr ⟨D0, S0, ensureFinalizer_present r env htok, ?_⟩
    have hc : ContainsFinalizer d dummyFinalizer = true := by
      simpa [ContainsFinalizer, h0.finalizers] using htok
    exact
      { sync := h0.sync, key := h0.key, ident := h0.ident, deletion := h0.deletion,
        spec := h0.spec, echo := h0.echo, podStatus := h0.podStatus, token := htok,
        finalizers := by rw [h0.finalizers, if_pos hc], pods := h0.pods,
        log := h0.log, faults := h0.faults }
  · simp only [Bool.not_eq_true] at htok
    have hc : ContainsFinalizer d dummyFinalizer = false := by
      simpa [ContainsFinalizer, h0.finalizers] using htok
    rcases S0.fault_cases with hf | ⟨f, hf⟩
    · refine Or.inr ⟨D0.added, _, ensureFinalizer_added r env htok hf hsync, ?_⟩
      have hk : D0.added.key = req := h0.key
      exact
        { sync := findIn_putIn_self h0.sync hk, key := hk, ident := h0.ident,
          deletion := h0.deletion, spec := h0.spec, echo := h0.echo,
          podStatus := h0.podStatus, token := ContainsFinalizer_added D0,
          finalizers := by
            rw [if_neg (by simp [hc])]
            show D0.Finalizers ++ [dummyFinalizer] = _
            rw [h0.finalizers]
          pods := h0.pods,
          log := log_after h0.log (.update D0.addObj) none (putIn S0.dummies D0.added)
            S0.pods ⟨rfl, rfl⟩,
          faults := Store.after_drop h0.faults (.update D0.addObj) none
            (putIn S0.dummies D0.added) S0.pods }
    · left
      rw [ensureFinalizer_fault r env htok hf]
      exact EarlyExit.of_store _
        (Store.not_quiet_of_drop h0.faults (Store.not_quiet_of_fault hf)) h0.pods
        (log_after (log_weaken h0.log (fun ev h => h.2)) (.update D0.addObj)
          (some (.status f)) S0.dummies S0.pods rfl)

theorem Reconcile_prefix (r : DummyReconciler) (env : Env) (req : NamespacedName) (s : Store)
    (d : Dummy) (hd : findIn s.dummies req = some d) :
    EarlyExit s (Reconcile r env req s) ∨
    ∃ D S, Reconcile r env req s = Reconcile.deletionBranch r env D S ∧
      Prepared s req d D S := by
  have hk : d.key = req := findIn_key hd
  rcases s.fault_cases with hf | ⟨f, hf⟩
  swap
  · left
    rw [Reconcile_fault r env hf]
    split <;>
    exact EarlyExit.of_store _ (Store.not_quiet_of_fault hf) rfl
      (log_after (log_refl s (fun ev => ev.call.podKey = none)) (.getDummy req)
        (some (.status f)) s.dummies s.pods rfl)
  have hl1 := log_after (log_refl s (fun ev => ev.err = none ∧ ev.call.podKey = none))
    (.getDummy req) none s.dummies s.pods ⟨rfl, rfl⟩
  have hd1 := Store.after_drop (Store.drop_refl s) (.getDummy req) none s.dummies s.pods
  by_cases hecho : d.Status.SpecEcho = d.Spec.Message
  · rw [Reconcile_in_sync r env hf hd hecho]
    exact ensureFinalizer_prefix r env req s d d _
      { sync := hd, key := hk, ident := ⟨rfl, rfl, rfl⟩, deletion := rfl, spec := rfl,
        echo := hecho, podStatus := rfl, finalizers := rfl, pods := rfl,
        log := hl1, faults := hd1 }
  · rcases (s.after (.getDummy req) none s.dummies s.pods).fault_cases with hf2 | ⟨f2, hf2⟩
    swap
    · left
      rw [Reconcile_echo_fault r env hf hd hecho hf2]
      exact EarlyExit.of_store _
        (Store.not_quiet_of_drop hd1 (Store.not_quiet_of_fault hf2)) rfl
        (log_after (log_weaken hl1 (fun ev h => h.2)) (.statusUpdate d.echoObj)
          (some (.status f2)) s.dummies s.pods rfl)
    have hl2 := log_after hl1 (.statusUpdate d.echoObj) none (putIn s.dummies d.echoed) s.pods
      ⟨rfl, rfl⟩
    have hd2 := Store.after_drop hd1 (.statusUpdate d.echoObj) none (putIn s.dummies d.echoed)
      s.pods
    rcases ((s.after (.getDummy req) none s.dummies s.pods).after (.statusUpdate d.echoObj)
      none (putIn s.dummies d.echoed) s.pods).fault_cases with hf3 | ⟨f3, hf3⟩
    swap
    · left
      rw [Reconcile_refetch_fault r env hf hd hecho hf2 hf3]
      split <;>
      exact EarlyExit.of_store _
        (Store.not_quiet_of_drop hd2 (Store.not_quiet_of_fault hf3)) rfl
        (log_after (log_weaken hl2 (fun ev h => h.2)) (.getDummy req)
          (some (.status f3)) (putIn s.dummies d.echoed) s.pods rfl)
    rw [Reconcile_echoed r env hf hd hecho hf2 hf3]
    have hk2 : d.echoed.key = req := hk
    exact ensureFinalizer_prefix r env req s d d.echoed _
      { sync := findIn_putIn_self hd hk2, key := hk2, ident := ⟨rfl, rfl, rfl⟩,
        deletion := rfl, spec := rfl, echo := rfl, podStatus := rfl, finalizers := rfl,
        pods := rfl,
        log := log_after hl2 (.getDummy req) none (putIn s.dummies d.echoed) s.pods
          ⟨rfl, rfl⟩,
        faults := Store.after_drop hd2 (.getDummy req) none (putIn s.dummies d.echoed)
          s.pods }

theorem passLog_of_log {s s1 : Store} {l : List Event} (h : s1.log = s.log ++ l) :
    passLog s s1 = l := by
  simp [passLog, h]


/-- The tail of a pass over a Dummy that is being deleted and holds the finalizer: one
update with the finalizer removed, which ends the pass. -/
theorem ensureFinalizer_deleting (r : DummyReconciler) (env : Env) (d : Dummy) (s : Store)
    (hsync : findIn s.dummies d.key = some d)
    (hdel : d.DeletionTimestamp.isSome = true)
    (htok : ContainsFinalizer d dummyFinalizer = true) :
    ∃ res err ds ps,
      Reconcile.ensureFinalizer r env d s = (res, s.after (.update d.removeObj) err ds ps) ∧
      (err = none → res = ({}, none) ∧ ds = dummiesAfterUpdate s.dummies (.ok d.removed) ∧
        ps = podsAfterUpdate s.pods (.ok d.removed)) := by
  rw [ensureFinalizer_present r env htok]
  rcases s.fault_cases with hf | ⟨f, hf⟩
  · exact ⟨_, _, _, _, deletionBranch_removed r env hdel htok hf hsync, fun _ => ⟨rfl, rfl, rfl⟩⟩
  · exact ⟨_, _, _, _, deletionBranch_fault r env hdel htok hf, fun h => by cases h⟩

theorem removed_erased_iff (d : Dummy) (hdel : d.DeletionTimestamp.isSome = true) :
    d.removed.erased ↔ d.Finalizers.filter (fun e => !(e == dummyFinalizer)) = [] := by
  simp [Dummy.erased, Dummy.removed, Dummy.updatedFrom, Dummy.removeObj, hdel]

theorem findIn_after_removed {ds : List Dummy} {d : Dummy} {req : NamespacedName}
    (hd : findIn ds req = some d) (hdel : d.DeletionTimestamp.isSome = true) :
    findIn (dummiesAfterUpdate ds (.ok d.removed)) req =
      if d.Finalizers.filter (fun e => !(e == dummyFinalizer)) = [] then none
      else some d.removed := by
  have hk0 := findIn_key hd
  have hk : d.removed.key = req := hk0
  simp only [dummiesAfterUpdate]
  by_cases he : d.removed.erased
  · rw [if_pos he, if_pos ((removed_erased_iff d hdel).1 he), findIn_eraseIn, if_pos hk.symm]
  · rw [if_neg he, if_neg (fun h => he ((removed_erased_iff d hdel).2 h)),
      findIn_putIn_self hd hk]


theorem mem_filter_ne_self (l : List String) (x : String) :
    x ∉ l.filter (fun e => !(e == x)) := by
  simp [List.mem_filter]

/-- What the store holds under `req` after the update that removes the finalizer. -/
theorem deletion_store_facts {ds : List Dummy} {d : Dummy} {req : NamespacedName}
    (hd : findIn ds req = some d) (hdel : d.DeletionTimestamp.isSome = true) :
    (∀ d1, findIn (dummiesAfterUpdate ds (.ok d.removed)) req = some d1 →
      dummyFinalizer ∉ d1.Finalizers ∧
      d1.Finalizers = d.Finalizers.filter (fun e => !(e == dummyFinalizer)) ∧
      d1.DeletionTimestamp = d.DeletionTimestamp ∧ d1.Status = d.Status) ∧
    (findIn (dummiesAfterUpdate ds (.ok d.removed)) req = none ↔
      d.Finalizers.filter (fun e => !(e == dummyFinalizer)) = []) := by
  rw [findIn_after_removed hd hdel]
  by_cases h : d.Finalizers.filter (fun e => !(e == dummyFinalizer)) = []
  · simp [h]
  · simp only [h, if_false, Option.some.injEq, reduceCtorEq, iff_false, not_false_eq_true,
      and_true]
    rintro d1 rfl
    exact ⟨mem_filter_ne_self _ _, rfl, rfl, rfl⟩

/-! ### The child step when the pod is created -/

theorem SetControllerReference_fresh (d : Dummy) (pod : Pod) (scheme : Scheme)
    (hns : pod.Namespace = d.Namespace) (hown : pod.OwnerReferences = []) :
    SetControllerReference d pod scheme =
      match GVKForDummy scheme with
      | .error err => .error err
      | .ok gvk => .ok { pod with OwnerReferences := [controllerRef gvk d] } := by
  unfold SetControllerReference
  have h1 : ¬ (d.Namespace ≠ "" ∧ pod.Namespace = "") := by
    rw [hns]
    exact fun h => h.1 h.2
  have h2 : ¬ (d.Namespace ≠ "" ∧ d.Namespace ≠ pod.Namespace) := by
    rw [hns]
    exact fun h => h.2 rfl
  rw [if_neg h1, if_neg h2]
  cases GVKForDummy scheme with
  | error e => rfl
  | ok gvk => simp [hown, controllerRef]

theorem createPodDefinition_ok {r : DummyReconciler} {env : Env} {d : Dummy} {pod : Pod}
    (h : r.createPodDefinition env d = .ok pod) :
    ∃ img gvk, imageForPod env = .ok img ∧ GVKForDummy r.Scheme = .ok gvk ∧
      pod = podFor d img gvk := by
  unfold DummyReconciler.createPodDefinition at h
  cases himg : imageForPod env with
  | error e => simp [himg] at h
  | ok img =>
    simp only [himg] at h
    rw [SetControllerReference_fresh d _ r.Scheme rfl rfl] at h
    cases hg : GVKForDummy r.Scheme with
    | error e => simp [hg] at h
    | ok gvk =>
      simp only [hg, Except.ok.injEq] at h
      exact ⟨img, gvk, rfl, rfl, h.symm⟩

theorem passLog_after1 {s S : Store} {l : List Event} (h : S.log = s.log ++ l) (c : Call)
    (e : Option GoError) (ds : List Dummy) (ps : List Pod) :
    passLog s (S.after c e ds ps) = l ++ [⟨c, e⟩] :=
  passLog_of_log (by simp [Store.after_log, h])

theorem passLog_after2 {s S : Store} {l : List Event} (h : S.log = s.log ++ l) (c c1 : Call)
    (e e1 : Option GoError) (ds ds1 : List Dummy) (ps ps1 : List Pod) :
    passLog s ((S.after c e ds ps).after c1 e1 ds1 ps1) = l ++ [⟨c, e⟩, ⟨c1, e1⟩] :=
  passLog_of_log (by simp [Store.after_log, h])


theorem createChild_converges (r : DummyReconciler) (env : Env) (D : Dummy) (S : Store)
    (hres : (Reconcile.createChild r env D S).1 = ({}, none)) :
    ∃ pod, r.createPodDefinition env D = .ok pod ∧
      (Reconcile.createChild r env D S).2.pods = S.pods ++ [pod] ∧
      (Reconcile.createChild r env D S).2.dummies = S.dummies := by
  cases hdef : r.createPodDefinition env D with
  | error e =>
    rw [createChild_definition_error r env hdef] at hres
    simp at hres
  | ok pod =>
    rcases S.fault_cases with hf | ⟨f, hf⟩
    · cases hp : findPodIn S.pods pod.key with
      | none =>
        rw [createChild_fresh r env hdef hf hp]
        exact ⟨pod, rfl, rfl, rfl⟩
      | some p =>
        rw [createChild_exists r env hdef hf hp] at hres
        simp at hres
    · rw [createChild_fault r env hdef hf] at hres
      simp at hres

theorem childSync_converges (r : DummyReconciler) (env : Env) (s S : Store) (D : Dummy)
    (l : List Event) (hl : S.log = s.log ++ l) (hlp : ∀ ev ∈ l, ev.call.podKey = none)
    (hsync : findIn S.dummies D.key = some D) (k : NamespacedName)
    (hnf : (⟨.getPod k, some (.status .NotFound)⟩ : Event) ∈
      passLog s (Reconcile.childSync r env D S).2)
    (hres : (Reconcile.childSync r env D S).1 = ({}, none)) :
    ∃ pod, r.createPodDefinition env D = .ok pod ∧
      (Reconcile.childSync r env D S).2.pods = S.pods ++ [pod] ∧
      (Reconcile.childSync r env D S).2.dummies = S.dummies := by
  have hnl : (⟨.getPod k, some (.status .NotFound)⟩ : Event) ∉ l := by
    intro h
    have := hlp _ h
    simp [Call.podKey] at this
  rcases S.fault_cases with hf | ⟨f, hf⟩
  · cases hp : findPodIn S.pods D.lookupKey with
    | none =>
      rw [childSync_missing r env hf hp] at hres ⊢
      exact createChild_converges r env D _ hres
    | some p =>
      exfalso
      by_cases hph : p.Phase = D.Status.PodStatus
      · rw [childSync_in_sync r env hf hp hph, passLog_after1 hl] at hnf
        simp [hnl] at hnf
      · rcases (S.after (.getPod D.lookupKey) none S.dummies S.pods).fault_cases with
          hf2 | ⟨f2, hf2⟩
        · rw [childSync_mirror r env hf hp hph hf2 hsync, passLog_after2 hl] at hnf
          simp [hnl] at hnf
        · rw [childSync_mirror_fault r env hf hp hph hf2] at hres
          simp at hres
  · rw [childSync_fault r env hf] at hres hnf ⊢
    by_cases hn : IsNotFound (.status f) = true
    · rw [if_pos hn] at hres hnf ⊢
      exact createChild_converges r env D _ hres
    · exfalso
      rw [if_neg hn, passLog_after1 hl] at hnf
      simp only [List.mem_append, List.mem_singleton, Event.mk.injEq, Call.getPod.injEq,
        Option.some.injEq, GoError.status.injEq, hnl, false_or] at hnf
      rw [← hnf.2] at hn
      exact hn rfl


theorem podFor_congr {d D : Dummy} (img : image) (gvk : GroupVersionKind)
    (h : D.Namespace = d.Namespace ∧ D.Name = d.Name ∧ D.UID = d.UID) :
    podFor D img gvk = podFor d img gvk := by
  simp [podFor, controllerRef, h.1, h.2.1, h.2.2]

theorem mem_of_ContainsFinalizer {d : Dummy} {f : String}
    (h : ContainsFinalizer d f = true) : f ∈ d.Finalizers := by
  simp only [ContainsFinalizer, List.any_eq_true, beq_iff_eq] at h
  obtain ⟨x, hx, rfl⟩ := h
  exact hx

/-! ### A second pass over a settled store -/

theorem Store.quiet_after {S : Store} (hq : S.quiet) (c : Call) (e : Option GoError)
    (ds : List Dummy) (ps : List Pod) : (S.after c e ds ps).quiet :=
  Store.quiet_of_drop hq (Store.after_drop (Store.drop_refl S) c e ds ps)

/-- A second pass over a settled Dummy only reads. -/
theorem Reconcile_settled (r : DummyReconciler) (env : Env) (req : NamespacedName) (s : Store)
    (D : Dummy) (p : Pod) (hq : s.quiet) (hd : findIn s.dummies req = some D)
    (hecho : D.Status.SpecEcho = D.Spec.Message)
    (htok : ContainsFinalizer D dummyFinalizer = true)
    (hlive : D.DeletionTimestamp = none)
    (hp : findPodIn s.pods D.lookupKey = some p) (hph : p.Phase = D.Status.PodStatus) :
    Reconcile r env req s =
      (({}, none),
        (s.after (.getDummy req) none s.dummies s.pods).after (.getPod D.lookupKey) none
          s.dummies s.pods) := by
  have hl0 : ¬ (D.DeletionTimestamp.isSome = true ∧
      ContainsFinalizer D dummyFinalizer = true) := by
    rw [hlive]
    simp
  rw [Reconcile_in_sync r env (Store.quiet_fault hq) hd hecho,
    ensureFinalizer_present r env htok, deletionBranch_live r env hl0,
    childSync_in_sync r env (Store.quiet_fault (Store.quiet_after hq _ _ _ _)) hp hph]
  rfl

theorem childSync_settles (r : DummyReconciler) (env : Env) (s S : Store)
    (req : NamespacedName) (D : Dummy) (l : List Event)
    (hl : S.log = s.log ++ l) (hlp : ∀ ev ∈ l, ev.call.podKey = none)
    (hq : S.quiet) (hsync : findIn S.dummies req = some D) (hkey : D.key = req)
    (hend : findIn (Reconcile.childSync r env D S).2.dummies req = none ∨
      ∃ k, (⟨.getPod k, none⟩ : Event) ∈ passLog s (Reconcile.childSync r env D S).2) :
    ∃ p D2, findPodIn (Reconcile.childSync r env D S).2.pods D.lookupKey = some p ∧
      findIn (Reconcile.childSync r env D S).2.dummies req = some D2 ∧
      D2.lookupKey = D.lookupKey ∧ D2.Spec = D.Spec ∧
      D2.Status.SpecEcho = D.Status.SpecEcho ∧ D2.Finalizers = D.Finalizers ∧
      D2.DeletionTimestamp = D.DeletionTimestamp ∧ p.Phase = D2.Status.PodStatus ∧
      (Reconcile.childSync r env D S).2.quiet ∧
      (Reconcile.childSync r env D S).1 = ({}, none) := by
  have hf := Store.quiet_fault hq
  have hnl : ∀ k, (⟨.getPod k, none⟩ : Event) ∉ l := by
    intro k h
    have := hlp _ h
    simp [Call.podKey] at this
  have hsync1 : findIn S.dummies D.key = some D := by rw [hkey]; exact hsync
  cases hp : findPodIn S.pods D.lookupKey with
  | none =>
    exfalso
    rw [childSync_missing r env hf hp] at hend
    have hq1 := Store.quiet_after hq (.getPod D.lookupKey) (some (.status .NotFound))
      S.dummies S.pods
    cases hdef : r.createPodDefinition env D with
    | error e =>
      rw [createChild_definition_error r env hdef] at hend
      rcases hend with h | ⟨k, h⟩
      · simp only [Store.after_dummies, hsync] at h
        cases h
      · rw [passLog_after1 hl] at h
        simp [hnl] at h
    | ok pod =>
      cases hpp : findPodIn (S.after (.getPod D.lookupKey) (some (.status .NotFound))
        S.dummies S.pods).pods pod.key with
      | none =>
        rw [createChild_fresh r env hdef (Store.quiet_fault hq1) hpp] at hend
        rcases hend with h | ⟨k, h⟩
        · simp only [Store.after_dummies, hsync] at h
          cases h
        · rw [passLog_after2 hl] at h
          simp [hnl] at h
      | some p1 =>
        rw [createChild_exists r env hdef (Store.quiet_fault hq1) hpp] at hend
        rcases hend with h | ⟨k, h⟩
        · simp only [Store.after_dummies, hsync] at h
          cases h
        · rw [passLog_after2 hl] at h
          simp [hnl] at h
  | some p =>
    by_cases hph : p.Phase = D.Status.PodStatus
    · rw [childSync_in_sync r env hf hp hph]
      exact ⟨p, D, hp, hsync, rfl, rfl, rfl, rfl, rfl, hph, Store.quiet_after hq _ _ _ _, rfl⟩
    · have hq1 := Store.quiet_after hq (.getPod D.lookupKey) none S.dummies S.pods
      rw [childSync_mirror r env hf hp hph (Store.quiet_fault hq1) hsync1]
      have hk2 : (D.mirrored p.Phase).key = req := hkey
      exact ⟨p, D.mirrored p.Phase, hp, findIn_putIn_self hsync hk2, rfl, rfl, rfl, rfl, rfl,
        rfl, Store.quiet_after hq1 _ _ _ _, rfl⟩


theorem noop_of_missing (r : DummyReconciler) (env : Env) (req : NamespacedName) (s1 : Store)
    (hq : s1.quiet) (h : findIn s1.dummies req = none) :
    (Reconcile r env req s1).1 = ({ Requeue := false }, none) ∧
    (Reconcile r env req s1).2.dummies = s1.dummies ∧
    (Reconcile r env req s1).2.pods = s1.pods ∧
    ∀ ev ∈ passLog s1 (Reconcile r env req s1).2, ev.call.isMutation = false := by
  rw [Reconcile_missing r env (Store.quiet_fault hq) h]
  refine ⟨rfl, rfl, rfl, ?_⟩
  rw [passLog_of_log (Store.after_log _ _ _ _ _)]
  simp [Call.isMutation]

theorem noop_of_settled (r : DummyReconciler) (env : Env) (req : NamespacedName) (s1 : Store)
    (D : Dummy) (p : Pod) (hq : s1.quiet) (hd : findIn s1.dummies req = some D)
    (hecho : D.Status.SpecEcho = D.Spec.Message)
    (htok : ContainsFinalizer D dummyFinalizer = true)
    (hlive : D.DeletionTimestamp = none)
    (hp : findPodIn s1.pods D.lookupKey = some p) (hph : p.Phase = D.Status.PodStatus) :
    (Reconcile r env req s1).1 = ({ Requeue := false }, none) ∧
    (Reconcile r env req s1).2.dummies = s1.dummies ∧
    (Reconcile r env req s1).2.pods = s1.pods ∧
    ∀ ev ∈ passLog s1 (Reconcile r env req s1).2, ev.call.isMutation = false := by
  rw [Reconcile_settled r env req s1 D p hq hd hecho htok hlive hp hph]
  refine ⟨rfl, rfl, rfl, ?_⟩
  rw [passLog_after2 (l := []) (by simp)]
  simp [Call.isMutation]

/-! ## Theorems: one pass, path by path -/

set_option maxHeartbeats 1000000 in
theorem Reconcile_failed_write_aux (r : DummyReconciler) (env : Env) (req : NamespacedName)
    (s s1 : Store) (res : Result × Option GoError)
    (h : Reconcile r env req s = (res, s1)) (c : Call) (e : GoError) (hw : c.isWrite = true)
    (hmem : (⟨c, some e⟩ : Event) ∈ passLog s s1) :
    res = ({}, some e) := by
  simp only [Reconcile, Reconcile.ensureFinalizer, Reconcile.deletionBranch,
    Reconcile.childSync, Reconcile.createChild] at h
  repeat' split at h
  all_goals (cases h)
  all_goals (simp only [Store.Get_eq, Store.GetPod_eq, Store.Create_eq, Store.StatusUpdate_eq,
    Store.Update_eq, AddFinalizer_eq, RemoveFinalizer_eq] at *)
  all_goals (cases_type* And)
  all_goals (subst_vars)
  all_goals (simp only [passLog, Store.after_log, List.append_assoc, List.drop_left,
    List.singleton_append, List.cons_append, List.nil_append, errOf] at hmem)
  all_goals (simp only [List.mem_cons, List.mem_singleton, List.not_mem_nil, Event.mk.injEq,
    reduceCtorEq, false_and, and_false, or_false, false_or, Option.some.injEq] at hmem)
  all_goals (try cases_type* Or)
  all_goals (try cases_type* And)
  all_goals (subst_vars)
  all_goals (first | rfl | (simp [Call.isWrite] at hw))

theorem createPodDefinition_of_image_error (r : DummyReconciler) (env : Env) (d : Dummy)
    (e : GoError) (h : imageForPod env = .error e) :
    r.createPodDefinition env d = .error (.wrapped "get image for pod" e) := by
  simp [DummyReconciler.createPodDefinition, h]

theorem mem_podsAfterUpdate {ps : List Pod} {res : Except GoError Dummy} {p : Pod}
    (h : p ∈ podsAfterUpdate ps res) : p ∈ ps := by
  unfold podsAfterUpdate at h
  split at h
  · split at h
    · exact (List.mem_filter.1 h).1
    · exact h
  · exact h

set_option maxHeartbeats 1000000 in
theorem Reconcile_no_image_aux (r : DummyReconciler) (env : Env) (req : NamespacedName)
    (s s1 : Store) (res : Result × Option GoError)
    (h : Reconcile r env req s = (res, s1))
    (e0 : GoError) (hcfg : imageForPod env = .error e0) (k : NamespacedName)
    (hnf : (⟨.getPod k, some (.status .NotFound)⟩ : Event) ∈ passLog s s1) :
    (∀ ev ∈ passLog s s1, ∀ p, ev.call ≠ .createPod p) ∧
    (∀ p ∈ s1.pods, p ∈ s.pods) ∧
    res = ({}, some (.wrapped "get image for pod" e0)) := by
  simp only [Reconcile, Reconcile.ensureFinalizer, Reconcile.deletionBranch,
    Reconcile.childSync, Reconcile.createChild,
    createPodDefinition_of_image_error r env _ e0 hcfg] at h
  repeat' split at h
  all_goals (cases h)
  all_goals (simp only [Store.Get_eq, Store.GetPod_eq, Store.Create_eq, Store.StatusUpdate_eq,
    Store.Update_eq, AddFinalizer_eq, RemoveFinalizer_eq] at *)
  all_goals (cases_type* And)
  all_goals (subst_vars)
  all_goals (simp only [passLog, Store.after_log, Store.after_pods, Store.after_dummies,
    List.append_assoc, List.drop_left, List.singleton_append, List.cons_append,
    List.nil_append, errOf] at *)
  all_goals (simp only [List.mem_cons, List.mem_singleton, List.not_mem_nil, Event.mk.injEq,
    Call.getPod.injEq, reduceCtorEq, false_and, and_false, or_false, false_or,
    Option.some.injEq] at hnf)
  all_goals (obtain ⟨rfl, rfl⟩ := hnf)
  all_goals (refine ⟨?_, ?_, ?_⟩)
  all_goals (first
    | rfl
    | (exact fun p hp => hp)
    | (exact fun p hp => mem_podsAfterUpdate hp)
    | (simp; done)
    | (simp [IsNotFound] at *))

/-! ## Theorems: errors of the store calls (C1, C2), the lookup key (C3, C7) -/

/-- C1 (counterexample): with a fresh Dummy whose status write hits a version conflict, the
pass logs the failed write and returns the conflict as its error, with `Requeue` unset. -/
theorem Reconcile_conflict_not_requeued :
    (⟨echoWrite, some (.status .Conflict)⟩ : Event) ∈
      passLog storeConflict (Reconcile reconcilerOK envOK keyX storeConflict).2 ∧
    (Reconcile reconcilerOK envOK keyX storeConflict).1 ≠ ({ Requeue := true }, none) ∧
    (Reconcile reconcilerOK envOK keyX storeConflict).1 =
      ({ Requeue := false }, some (.status .Conflict)) := by
  decide

/-- C1 (amended): when a write of the pass (a status update or an update of the Dummy) fails
with a version conflict, `Reconcile` returns the empty result, `Requeue` unset, together
with that conflict as its error. -/
theorem Reconcile_write_conflict_is_returned (r : DummyReconciler) (env : Env)
    (req : NamespacedName) (s : Store) (c : Call) (hw : c.isWrite = true)
    (hc : (⟨c, some (.status .Conflict)⟩ : Event) ∈ passLog s (Reconcile r env req s).2) :
    (Reconcile r env req s).1 = ({ Requeue := false }, some (.status .Conflict)) :=
  Reconcile_failed_write_aux r env req s _ _ rfl c _ hw hc

theorem Reconcile_write_conflict_is_returned_witness :
    echoWrite.isWrite = true ∧
    (⟨echoWrite, some (.status .Conflict)⟩ : Event) ∈
      passLog storeConflict (Reconcile reconcilerOK envOK keyX storeConflict).2 ∧
    (Reconcile reconcilerOK envOK keyX storeConflict).1 =
      ({ Requeue := false }, some (.status .Conflict)) :=
  ⟨by decide, by decide,
    Reconcile_write_conflict_is_returned reconcilerOK envOK keyX storeConflict echoWrite (by decide)
      (by decide)⟩

/-- C2 (failing input): the Dummy is settled and the lookup of its pod fails with a server
error that is not `NotFound`; the pass logs the failed lookup and returns success. -/
theorem Reconcile_lookup_error_swallowed :
    passLog storeLookupFails (Reconcile reconcilerOK envOK keyX storeLookupFails).2 =
      [⟨.getDummy keyX, none⟩,
       ⟨.getPod ⟨"ns", "x"⟩, some (.status (.Other "InternalError"))⟩] ∧
    IsNotFound (.status (.Other "InternalError")) = false ∧
    (Reconcile reconcilerOK envOK keyX storeLookupFails).1 = ({ Requeue := false }, none) := by
  decide

/-- C3 (failing input): the child `x-pod` is running, the status of the Dummy is not
`Running`, and every call of the pass succeeds; the pass issues no create and leaves
`status.podStatus` at `Pending`, the phase of the pod named `x`. -/
theorem Reconcile_mirrors_other_pod :
    (storeTwoPods.findPod ⟨"ns", "x-pod"⟩).map (fun p => p.Phase) = some "Running" ∧
    (storeTwoPods.findDummy keyX).map (fun d => (d.DeletionTimestamp, d.Status.PodStatus))
      = some (none, "") ∧
    (∀ ev ∈ passLog storeTwoPods (Reconcile reconcilerOK envOK keyX storeTwoPods).2,
      ev.err = none) ∧
    (passLog storeTwoPods (Reconcile reconcilerOK envOK keyX storeTwoPods).2).map
        (fun ev => ev.call.podKey) = [none, some ⟨"ns", "x"⟩, none] ∧
    (Reconcile reconcilerOK envOK keyX storeTwoPods).1 = ({ Requeue := false }, none) ∧
    ((Reconcile reconcilerOK envOK keyX storeTwoPods).2.findDummy keyX).map
        (fun d => d.Status.PodStatus) = some "Pending" := by
  decide

/-- C7 (failing input): for the fresh Dummy `ns/x` the pass looks the pod up under the name
`x` and, not finding it, creates the pod `x-pod` built by `createPodDefinition`. -/
theorem Reconcile_lookup_key_is_not_child_key :
    (passLog storeFresh (Reconcile reconcilerOK envOK keyX storeFresh).2).filterMap
        (fun ev => ev.call.podKey) = [⟨"ns", "x"⟩, ⟨"ns", "x-pod"⟩] ∧
    (reconcilerOK.createPodDefinition envOK dummyFresh).toOption.map (fun p => p.key)
      = some ⟨"ns", "x-pod"⟩ ∧
    (Reconcile reconcilerOK envOK keyX
        (Reconcile reconcilerOK envOK keyX storeFresh).2).1
      = ({ Requeue := false }, some (.status .AlreadyExists)) := by
  decide

/-! ## Theorems: missing image configuration (C10) -/

/-- C10: when the pass reaches the child step with the pod lookup reporting `NotFound` and
the image lookup fails, the pass issues no create call, leaves no pod in the store that was
not there before, and returns the error of the image lookup, wrapped. -/
theorem Reconcile_missing_image_no_create (r : DummyReconciler) (env : Env)
    (req : NamespacedName) (s : Store) (e0 : GoError) (k : NamespacedName)
    (hcfg : imageForPod env = .error e0)
    (hnf : (⟨.getPod k, some (.status .NotFound)⟩ : Event) ∈
      passLog s (Reconcile r env req s).2) :
    (∀ ev ∈ passLog s (Reconcile r env req s).2, ∀ p, ev.call ≠ .createPod p) ∧
    (∀ p ∈ (Reconcile r env req s).2.pods, p ∈ s.pods) ∧
    (Reconcile r env req s).1 =
      ({ Requeue := false }, some (.wrapped "get image for pod" e0)) :=
  Reconcile_no_image_aux r env req s _ _ rfl e0 hcfg k hnf

theorem Reconcile_missing_image_no_create_witness :
    imageForPod (envOf none) = .error errNoImage ∧
    (⟨.getPod keyX, some (.status .NotFound)⟩ : Event) ∈
      passLog storeSettled (Reconcile reconcilerOK (envOf none) keyX storeSettled).2 ∧
    ((∀ ev ∈ passLog storeSettled (Reconcile reconcilerOK (envOf none) keyX storeSettled).2,
        ∀ p, ev.call ≠ .createPod p) ∧
     (∀ p ∈ (Reconcile reconcilerOK (envOf none) keyX storeSettled).2.pods,
        p ∈ storeSettled.pods) ∧
     (Reconcile reconcilerOK (envOf none) keyX storeSettled).1 =
       ({ Requeue := false }, some (.wrapped "get image for pod" errNoImage))) :=
  ⟨rfl, by decide,
    Reconcile_missing_image_no_create reconcilerOK (envOf none) keyX storeSettled errNoImage
      keyX rfl (by decide)⟩

/-! ## Theorems: the deletion protocol (C6) -/

/-- C6: for a Dummy whose deletion marker is set and that holds the finalizer, a pass in
which every store call succeeds ends with success after one update that writes the Dummy
without the finalizer: the update is the last call of the pass, the store afterwards holds
the Dummy without the finalizer (or no longer holds it, when no finalizer is left), no call
of the pass reads or creates a pod, and no status write changes `status.podStatus`. -/
theorem Reconcile_deletion_protocol (r : DummyReconciler) (env : Env) (req : NamespacedName)
    (s : Store) (d : Dummy)
    (hd : findIn s.dummies req = some d)
    (hdel : d.DeletionTimestamp.isSome = true)
    (htok : dummyFinalizer ∈ d.Finalizers)
    (hok : ∀ ev ∈ passLog s (Reconcile r env req s).2, ev.err = none) :
    (Reconcile r env req s).1 = ({ Requeue := false }, none) ∧
    (∃ obj, (passLog s (Reconcile r env req s).2).getLast? = some ⟨.update obj, none⟩ ∧
      obj.key = req ∧
      obj.Finalizers = d.Finalizers.filter (fun e => !(e == dummyFinalizer))) ∧
    (∀ d1, findIn (Reconcile r env req s).2.dummies req = some d1 →
      dummyFinalizer ∉ d1.Finalizers ∧
      d1.Finalizers = d.Finalizers.filter (fun e => !(e == dummyFinalizer)) ∧
      d1.DeletionTimestamp = d.DeletionTimestamp ∧
      d1.Status.PodStatus = d.Status.PodStatus) ∧
    (findIn (Reconcile r env req s).2.dummies req = none ↔
      d.Finalizers.filter (fun e => !(e == dummyFinalizer)) = []) ∧
    (∀ ev ∈ passLog s (Reconcile r env req s).2, ev.call.podKey = none) ∧
    (∀ ev ∈ passLog s (Reconcile r env req s).2, ∀ obj,
      ev.call = .statusUpdate obj → obj.Status.PodStatus = d.Status.PodStatus) := by
  have hk : d.key = req := findIn_key hd
  have htok1 : ContainsFinalizer d dummyFinalizer = true := by
    simp only [ContainsFinalizer, List.any_eq_true, beq_iff_eq]
    exact ⟨_, htok, rfl⟩
  rcases s.fault_cases with hf | ⟨f, hf⟩
  swap
  · exfalso
    rw [Reconcile_fault r env hf] at hok
    split at hok <;> simp [passLog, Store.after_log] at hok
  by_cases hecho : d.Status.SpecEcho = d.Spec.Message
  · rw [Reconcile_in_sync r env hf hd hecho] at hok ⊢
    obtain ⟨res, err, ds, ps, heq, hres⟩ :=
      ensureFinalizer_deleting r env d (s.after (.getDummy req) none s.dummies s.pods)
        (by rw [hk]; exact hd) hdel htok1
    rw [heq] at hok ⊢
    have hlog : passLog s ((s.after (.getDummy req) none s.dummies s.pods).after
        (.update d.removeObj) err ds ps) =
        [⟨.getDummy req, none⟩, ⟨.update d.removeObj, err⟩] :=
      passLog_of_log (by simp [Store.after_log])
    rw [hlog] at hok ⊢
    have herr : err = none := by simpa using hok
    obtain ⟨rfl, rfl, rfl⟩ := hres herr
    subst herr
    obtain ⟨h1, h2⟩ := deletion_store_facts hd hdel
    refine ⟨rfl, ⟨d.removeObj, by simp, hk, rfl⟩, ?_, h2, by simp [Call.podKey], by simp⟩
    intro d1 hd1
    obtain ⟨a, b, c, e⟩ := h1 d1 hd1
    exact ⟨a, b, c, by rw [e]⟩
  · rcases (s.after (.getDummy req) none s.dummies s.pods).fault_cases with hf2 | ⟨f2, hf2⟩
    swap
    · exfalso
      rw [Reconcile_echo_fault r env hf hd hecho hf2] at hok
      simp [passLog, Store.after_log] at hok
    rcases ((s.after (.getDummy req) none s.dummies s.pods).after (.statusUpdate d.echoObj)
      none (putIn s.dummies d.echoed) s.pods).fault_cases with hf3 | ⟨f3, hf3⟩
    swap
    · exfalso
      rw [Reconcile_refetch_fault r env hf hd hecho hf2 hf3] at hok
      split at hok <;> simp [passLog, Store.after_log] at hok
    rw [Reconcile_echoed r env hf hd hecho hf2 hf3] at hok ⊢
    have hk2 : d.echoed.key = req := hk
    have hd2 : findIn (putIn s.dummies d.echoed) req = some d.echoed :=
      findIn_putIn_self hd hk2
    have hdel2 : d.echoed.DeletionTimestamp.isSome = true := hdel
    have htok2 : ContainsFinalizer d.echoed dummyFinalizer = true := htok1
    obtain ⟨res, err, ds, ps, heq, hres⟩ :=
      ensureFinalizer_deleting r env d.echoed
        (((s.after (.getDummy req) none s.dummies s.pods).after (.statusUpdate d.echoObj)
          none (putIn s.dummies d.echoed) s.pods).after (.getDummy req) none
          (putIn s.dummies d.echoed) s.pods)
        (by rw [hk2]; exact hd2) hdel2 htok2
    rw [heq] at hok ⊢
    have hlog : passLog s ((((s.after (.getDummy req) none s.dummies s.pods).after
        (.statusUpdate d.echoObj) none (putIn s.dummies d.echoed) s.pods).after
        (.getDummy req) none (putIn s.dummies d.echoed) s.pods).after
        (.update d.echoed.removeObj) err ds ps) =
        [⟨.getDummy req, none⟩, ⟨.statusUpdate d.echoObj, none⟩, ⟨.getDummy req, none⟩,
          ⟨.update d.echoed.removeObj, err⟩] :=
      passLog_of_log (by simp [Store.after_log])
    rw [hlog] at hok ⊢
    have herr : err = none := by simpa using hok
    obtain ⟨rfl, rfl, rfl⟩ := hres herr
    subst herr
    obtain ⟨h1, h2⟩ := deletion_store_facts hd2 hdel2
    refine ⟨rfl, ⟨d.echoed.removeObj, by simp, hk, rfl⟩, ?_, h2, by simp [Call.podKey],
      by simp [Dummy.echoObj]⟩
    intro d1 hd1
    obtain ⟨a, b, c, e⟩ := h1 d1 hd1
    exact ⟨a, b, c, by rw [e]; rfl⟩

theorem Reconcile_deletion_protocol_witness :
    findIn storeDeleting.dummies keyX = some dummyDeleting ∧
    dummyDeleting.DeletionTimestamp.isSome = true ∧
    dummyFinalizer ∈ dummyDeleting.Finalizers ∧
    (∀ ev ∈ passLog storeDeleting (Reconcile reconcilerOK envOK keyX storeDeleting).2,
      ev.err = none) ∧
    (Reconcile reconcilerOK envOK keyX storeDeleting).1 = ({ Requeue := false }, none) ∧
    (∀ ev ∈ passLog storeDeleting (Reconcile reconcilerOK envOK keyX storeDeleting).2,
      ev.call.podKey = none) :=
  ⟨by decide, by decide, by decide, by decide,
    (Reconcile_deletion_protocol reconcilerOK envOK keyX storeDeleting dummyDeleting
      (by decide) (by decide) (by decide) (by decide)).1,
    (Reconcile_deletion_protocol reconcilerOK envOK keyX storeDeleting dummyDeleting
      (by decide) (by decide) (by decide) (by decide)).2.2.2.2.1⟩

/-! ## Theorems: convergence (C5) -/

/-- C5 (counterexample): the Dummy holds the finalizer, has no child and is being deleted;
the pass returns success, the stored Dummy no longer holds the finalizer and no pod
exists. -/
theorem Reconcile_deleting_does_not_converge :
    findIn storeDeleting.dummies keyX = some dummyDeleting ∧
    storeDeleting.pods = [] ∧
    (Reconcile reconcilerOK envOK keyX storeDeleting).1 = ({ Requeue := false }, none) ∧
    (findIn (Reconcile reconcilerOK envOK keyX storeDeleting).2.dummies keyX).map
      (fun d => d.Finalizers) = some ["other/finalizer"] ∧
    (Reconcile reconcilerOK envOK keyX storeDeleting).2.pods = [] := by
  decide

/-- C5 (amended): for a Dummy whose deletion marker is not set, with `spec.message = M`, for
which the pod lookup of the pass reports `NotFound`: after a pass that returns success the
stored Dummy has `status.specEcho = M` and holds the finalizer, and the store holds the pod
built for the Dummy, which carries an owner reference to it and whose container image is
the full image reference resolved from the configuration. -/
theorem Reconcile_converges (r : DummyReconciler) (env : Env) (req : NamespacedName)
    (s : Store) (d : Dummy) (k : NamespacedName)
    (hd : findIn s.dummies req = some d)
    (hlive : d.DeletionTimestamp = none)
    (hnf : (⟨.getPod k, some (.status .NotFound)⟩ : Event) ∈
      passLog s (Reconcile r env req s).2)
    (hres : (Reconcile r env req s).1 = ({ Requeue := false }, none)) :
    ∃ d1 img gvk,
      findIn (Reconcile r env req s).2.dummies req = some d1 ∧
      d1.Spec.Message = d.Spec.Message ∧
      d1.Status.SpecEcho = d.Spec.Message ∧
      dummyFinalizer ∈ d1.Finalizers ∧
      imageForPod env = .ok img ∧
      podFor d img gvk ∈ (Reconcile r env req s).2.pods ∧
      (podFor d img gvk).ownedBy d1.UID = true ∧
      (podFor d img gvk).Containers.map (fun c => c.Image) = [img.fullImage] := by
  rcases Reconcile_prefix r env req s d hd with hee | ⟨D, S, heq, hp⟩
  · exfalso
    obtain ⟨l, hl, hlp⟩ := hee.log
    rw [passLog_of_log hl] at hnf
    have := hlp _ hnf
    simp [Call.podKey] at this
  · rw [heq] at hnf hres ⊢
    have hl0 : ¬ (D.DeletionTimestamp.isSome = true ∧
        ContainsFinalizer D dummyFinalizer = true) := by
      rw [hp.deletion, hlive]
      simp
    rw [deletionBranch_live r env hl0] at hnf hres ⊢
    obtain ⟨l, hl, hlp⟩ := hp.log
    obtain ⟨pod, hdef, hpods, hdum⟩ :=
      childSync_converges r env s S D l hl (fun ev h => (hlp ev h).2)
        (by rw [hp.key]; exact hp.sync) k hnf hres
    obtain ⟨img, gvk, himg, -, rfl⟩ := createPodDefinition_ok hdef
    refine ⟨D, img, gvk, by rw [hdum]; exact hp.sync, by rw [hp.spec], hp.echo,
      mem_of_ContainsFinalizer hp.token, himg, ?_, ?_, rfl⟩
    · rw [hpods, ← podFor_congr img gvk hp.ident]
      simp
    · simp [podFor, Pod.ownedBy, controllerRef, hp.ident.2.2]

theorem Reconcile_converges_witness :
    findIn storeFresh.dummies keyX = some dummyFresh ∧
    dummyFresh.DeletionTimestamp = none ∧
    (⟨.getPod keyX, some (.status .NotFound)⟩ : Event) ∈
      passLog storeFresh (Reconcile reconcilerOK envOK keyX storeFresh).2 ∧
    (Reconcile reconcilerOK envOK keyX storeFresh).1 = ({ Requeue := false }, none) ∧
    ∃ d1 img gvk,
      findIn (Reconcile reconcilerOK envOK keyX storeFresh).2.dummies keyX = some d1 ∧
      d1.Spec.Message = dummyFresh.Spec.Message ∧
      d1.Status.SpecEcho = dummyFresh.Spec.Message ∧
      dummyFinalizer ∈ d1.Finalizers ∧
      imageForPod envOK = .ok img ∧
      podFor dummyFresh img gvk ∈ (Reconcile reconcilerOK envOK keyX storeFresh).2.pods ∧
      (podFor dummyFresh img gvk).ownedBy d1.UID = true ∧
      (podFor dummyFresh img gvk).Containers.map (fun c => c.Image) = [img.fullImage] :=
  ⟨by decide, by decide, by decide, by decide,
    Reconcile_converges reconcilerOK envOK keyX storeFresh dummyFresh keyX (by decide)
      (by decide) (by decide) (by decide)⟩

/-! ## Theorems: running the pass twice (C4) -/

/-- C4 (counterexample): the settled Dummy has no pod and `POD_IMAGE` is not set; the first
run fails on the image lookup, and so does the second run, which does not report success. -/
theorem Reconcile_twice_fails_without_image :
    (Reconcile reconcilerOK (envOf none) keyX storeSettled).1 =
      ({ Requeue := false }, some (.wrapped "get image for pod" errNoImage)) ∧
    (Reconcile reconcilerOK (envOf none) keyX
        (Reconcile reconcilerOK (envOf none) keyX storeSettled).2).1 =
      ({ Requeue := false }, some (.wrapped "get image for pod" errNoImage)) ∧
    (Reconcile reconcilerOK (envOf none) keyX
        (Reconcile reconcilerOK (envOf none) keyX storeSettled).2).1 ≠
      ({ Requeue := false }, none) := by
  decide

/-- C4 (amended): when no store call is made to fail and the first run leaves no Dummy
under the key (it was not found, or its last finalizer was removed) or finds a pod in its
pod lookup, a second run in succession reports success, issues no mutation and leaves the
Dummies and pods of the store as the first run left them. -/
theorem Reconcile_twice_is_noop (r : DummyReconciler) (env : Env) (req : NamespacedName)
    (s : Store) (hq : s.quiet)
    (hend : findIn (Reconcile r env req s).2.dummies req = none ∨
      ∃ k, (⟨.getPod k, none⟩ : Event) ∈ passLog s (Reconcile r env req s).2) :
    (Reconcile r env req (Reconcile r env req s).2).1 = ({ Requeue := false }, none) ∧
    (Reconcile r env req (Reconcile r env req s).2).2.dummies =
      (Reconcile r env req s).2.dummies ∧
    (Reconcile r env req (Reconcile r env req s).2).2.pods = (Reconcile r env req s).2.pods ∧
    ∀ ev ∈ passLog (Reconcile r env req s).2 (Reconcile r env req (Reconcile r env req s).2).2,
      ev.call.isMutation = false := by
  cases hd : findIn s.dummies req with
  | none =>
    have h1 := Reconcile_missing r env (Store.quiet_fault hq) hd
    exact noop_of_missing r env req _ (by rw [h1]; exact Store.quiet_after hq _ _ _ _)
      (by rw [h1]; exact hd)
  | some d =>
    rcases Reconcile_prefix r env req s d hd with hee | ⟨D, S, heq, hp⟩
    · exact absurd hq hee.noisy
    · have hqS : S.quiet := Store.quiet_of_drop hq hp.faults
      have hsync : findIn S.dummies D.key = some D := by rw [hp.key]; exact hp.sync
      obtain ⟨l, hl, hlp⟩ := hp.log
      by_cases hdel : D.DeletionTimestamp.isSome = true
      · have h1 := deletionBranch_removed r env hdel hp.token (Store.quiet_fault hqS) hsync
        rw [heq, h1] at hend
        rcases hend with h | ⟨k, h⟩
        · exact noop_of_missing r env req _
            (by rw [heq, h1]; exact Store.quiet_after hqS _ _ _ _) (by rw [heq, h1]; exact h)
        · exfalso
          rw [passLog_after1 hl] at h
          simp only [List.mem_append, List.mem_singleton, Event.mk.injEq, reduceCtorEq,
            false_and, or_false] at h
          have := (hlp _ h).2
          simp [Call.podKey] at this
      · have hl0 : ¬ (D.DeletionTimestamp.isSome = true ∧
            ContainsFinalizer D dummyFinalizer = true) := fun h => hdel h.1
        have h1 := deletionBranch_live r env (s := S) hl0
        rw [heq, h1] at hend
        obtain ⟨p, D2, hpod, hd2, hkey2, hspec2, hecho2, hfin2, hdel2, hph2, hq2, -⟩ :=
          childSync_settles r env s S req D l hl (fun ev h => (hlp ev h).2) hqS hp.sync hp.key
            hend
        have hlive2 : D2.DeletionTimestamp = none := by
          rw [hdel2]
          cases hx : D.DeletionTimestamp with
          | none => rfl
          | some t => simp [hx] at hdel
        exact noop_of_settled r env req _ D2 p (by rw [heq, h1]; exact hq2)
          (by rw [heq, h1]; exact hd2)
          (by rw [hecho2, hspec2, hp.echo, hp.spec])
          (by
            have := hp.token
            simp only [ContainsFinalizer] at this ⊢
            rw [hfin2]
            exact this)
          hlive2 (by rw [heq, h1, hkey2]; exact hpod) hph2

theorem Reconcile_twice_is_noop_witness :
    storeLookedUp.quiet ∧
    (∃ k, (⟨.getPod k, none⟩ : Event) ∈
      passLog storeLookedUp (Reconcile reconcilerOK envOK keyX storeLookedUp).2) ∧
    (Reconcile reconcilerOK envOK keyX
      (Reconcile reconcilerOK envOK keyX storeLookedUp).2).1 = ({ Requeue := false }, none) ∧
    (Reconcile reconcilerOK envOK keyX
      (Reconcile reconcilerOK envOK keyX storeLookedUp).2).2.dummies =
      (Reconcile reconcilerOK envOK keyX storeLookedUp).2.dummies ∧
    (Reconcile reconcilerOK envOK keyX
      (Reconcile reconcilerOK envOK keyX storeLookedUp).2).2.pods =
      (Reconcile reconcilerOK envOK keyX storeLookedUp).2.pods ∧
    ∀ ev ∈ passLog (Reconcile reconcilerOK envOK keyX storeLookedUp).2
      (Reconcile reconcilerOK envOK keyX
        (Reconcile reconcilerOK envOK keyX storeLookedUp).2).2,
      ev.call.isMutation = false :=
  ⟨by decide, ⟨keyX, by decide⟩,
    Reconcile_twice_is_noop reconcilerOK envOK keyX storeLookedUp (by decide)
      (Or.inr ⟨keyX, by decide⟩)⟩

/-! ## Theorems: the pod definition (C11) -/

theorem createPodDefinition_eq (r : DummyReconciler) (env : Env) (d : Dummy) (i : image)
    (himg : imageForPod env = .ok i) :
    r.createPodDefinition env d =
      match SetControllerReference d (podDraft d i) r.Scheme with
      | .error _ => .error (.errorf "set ownerRef for pod")
      | .ok pod1 => .ok pod1 := by
  simp only [DummyReconciler.createPodDefinition, himg]
  rfl

theorem dash_pod (n : String) : n ++ "-" ++ "pod" = n ++ "-pod" := by
  rw [String.append_assoc]
  rfl

/-- C11: with the image resolved to `i`, when attaching the owner reference succeeds
`createPodDefinition` returns the pod with the reference attached: its name is
`d.Name ++ "-pod"`, its namespace is the one of `d`, it has one container, with image
`i.fullImage` and pull policy `IfNotPresent`, its labels are the five `app.kubernetes.io`
keys with `instance = d.Name` and `version = i.tag`, and its only owner reference is a
controller reference to `d`; when attaching the reference fails it returns an error. -/
theorem createPodDefinition_builds (r : DummyReconciler) (env : Env) (d : Dummy) (i : image)
    (himg : imageForPod env = .ok i) :
    (∀ pod, SetControllerReference d (podDraft d i) r.Scheme = .ok pod →
      r.createPodDefinition env d = .ok pod ∧
      pod.Name = d.Name ++ "-pod" ∧
      pod.Namespace = d.Namespace ∧
      pod.Containers =
        [{ Name := i.name, Image := i.fullImage, ImagePullPolicy := "IfNotPresent" }] ∧
      pod.Labels.map Prod.fst =
        ["app.kubernetes.io/name", "app.kubernetes.io/instance", "app.kubernetes.io/version",
         "app.kubernetes.io/part-of", "app.kubernetes.io/created-by"] ∧
      pod.Labels.lookup "app.kubernetes.io/instance" = some d.Name ∧
      pod.Labels.lookup "app.kubernetes.io/version" = some i.tag ∧
      ∃ ref, pod.OwnerReferences = [ref] ∧ ref.Controller = true ∧ ref.UID = d.UID ∧
        ref.Name = d.Name) ∧
    (∀ e, SetControllerReference d (podDraft d i) r.Scheme = .error e →
      r.createPodDefinition env d = .error (.errorf "set ownerRef for pod")) := by
  rw [createPodDefinition_eq r env d i himg]
  constructor
  · intro pod hpod
    rw [hpod]
    rw [SetControllerReference_fresh d _ r.Scheme rfl rfl] at hpod
    cases hg : GVKForDummy r.Scheme with
    | error e => simp [hg] at hpod
    | ok gvk =>
      simp only [hg, Except.ok.injEq] at hpod
      subst hpod
      refine ⟨rfl, dash_pod d.Name, rfl, rfl, rfl, ?_, ?_, controllerRef gvk d, rfl, rfl, rfl, rfl⟩
      · simp [podDraft, labelsForPod, List.lookup]
      · simp [podDraft, labelsForPod, List.lookup]
  · intro e he
    rw [he]

theorem createPodDefinition_builds_witness :
    imageForPod envOK = .ok imageOK ∧
    reconcilerOK.createPodDefinition envOK dummyFresh =
      .ok (podFor dummyFresh imageOK dummyGVK) ∧
    reconcilerNoScheme.createPodDefinition envOK dummyFresh =
      .error (.errorf "set ownerRef for pod") :=
  ⟨rfl,
    ((createPodDefinition_builds reconcilerOK envOK dummyFresh imageOK rfl).1
      (podFor dummyFresh imageOK dummyGVK) rfl).1,
    (createPodDefinition_builds reconcilerNoScheme envOK dummyFresh imageOK rfl).2
      (.errorf "no kind is registered for the type v1alpha1.Dummy") rfl⟩

/-! ## Theorems: a fetch that reports NotFound (C12) -/

theorem log_trans {s S1 S2 : Store} {P : Event → Prop}
    (h1 : ∃ l, S1.log = s.log ++ l ∧ ∀ ev ∈ l, P ev)
    (h2 : ∃ l, S2.log = S1.log ++ l ∧ ∀ ev ∈ l, P ev) :
    ∃ l, S2.log = s.log ++ l ∧ ∀ ev ∈ l, P ev := by
  obtain ⟨l1, hl1, hp1⟩ := h1
  obtain ⟨l2, hl2, hp2⟩ := h2
  refine ⟨l1 ++ l2, by rw [hl2, hl1, List.append_assoc], ?_⟩
  intro ev hev
  rcases List.mem_append.1 hev with h | h
  · exact hp1 ev h
  · exact hp2 ev h

theorem createChild_no_fetch (r : DummyReconciler) (env : Env) (d : Dummy) (s : Store) :
    ∃ l, (Reconcile.createChild r env d s).2.log = s.log ++ l ∧
      ∀ ev ∈ l, ev.call.isFetch = false := by
  unfold Reconcile.createChild
  split
  · exact log_refl s _
  · split
    · rename_i heq
      obtain ⟨-, rfl⟩ := Store.Create_eq.1 heq
      exact log_after (log_refl s _) _ _ _ _ rfl
    · rename_i heq
      obtain ⟨-, rfl⟩ := Store.Create_eq.1 heq
      exact log_after (log_refl s _) _ _ _ _ rfl

theorem childSync_no_fetch (r : DummyReconciler) (env : Env) (d : Dummy) (s : Store) :
    ∃ l, (Reconcile.childSync r env d s).2.log = s.log ++ l ∧
      ∀ ev ∈ l, ev.call.isFetch = false := by
  have h1 : ∀ e, ∃ l,
      (s.after (.getPod { Namespace := d.Namespace, Name := d.Name }) e s.dummies s.pods).log =
        s.log ++ l ∧ ∀ ev ∈ l, ev.call.isFetch = false :=
    fun e => log_after (log_refl s _) _ e _ _ rfl
  unfold Reconcile.childSync
  split
  · rename_i heq
    obtain ⟨-, rfl⟩ := Store.GetPod_eq.1 heq
    split
    · exact log_trans (h1 _) (createChild_no_fetch r env d _)
    · exact h1 _
  · rename_i heq
    obtain ⟨-, rfl⟩ := Store.GetPod_eq.1 heq
    split
    · simp only
      split
      · rename_i heq2
        obtain ⟨-, rfl⟩ := Store.StatusUpdate_eq.1 heq2
        exact log_after (h1 _) _ _ _ _ rfl
      · rename_i heq2
        obtain ⟨-, rfl⟩ := Store.StatusUpdate_eq.1 heq2
        exact log_after (h1 _) _ _ _ _ rfl
    · exact h1 _

theorem deletionBranch_no_fetch (r : DummyReconciler) (env : Env) (d : Dummy) (s : Store) :
    ∃ l, (Reconcile.deletionBranch r env d s).2.log = s.log ++ l ∧
      ∀ ev ∈ l, ev.call.isFetch = false := by
  by_cases h : d.DeletionTimestamp.isSome = true ∧ ContainsFinalizer d dummyFinalizer = true
  · simp only [Reconcile.deletionBranch, h.1, h.2, Bool.and_self, if_true,
      RemoveFinalizer_of_contains h.2]
    split
    · rename_i heq
      obtain ⟨-, rfl⟩ := Store.Update_eq.1 heq
      exact log_after (log_refl s _) _ _ _ _ rfl
    · rename_i heq
      obtain ⟨-, rfl⟩ := Store.Update_eq.1 heq
      exact log_after (log_refl s _) _ _ _ _ rfl
  · rw [deletionBranch_live r env h]
    exact childSync_no_fetch r env d s

theorem ensureFinalizer_no_fetch (r : DummyReconciler) (env : Env) (d : Dummy) (s : Store) :
    ∃ l, (Reconcile.ensureFinalizer r env d s).2.log = s.log ++ l ∧
      ∀ ev ∈ l, ev.call.isFetch = false := by
  by_cases h : ContainsFinalizer d dummyFinalizer = true
  · rw [ensureFinalizer_present r env h]
    exact deletionBranch_no_fetch r env d s
  · simp only [Bool.not_eq_true] at h
    simp only [Reconcile.ensureFinalizer, h, Bool.not_false, if_true,
      AddFinalizer_of_not_contains h]
    split
    · rename_i heq
      obtain ⟨-, rfl⟩ := Store.Update_eq.1 heq
      exact log_after (log_refl s _) _ _ _ _ rfl
    · rename_i heq
      obtain ⟨-, rfl⟩ := Store.Update_eq.1 heq
      exact log_trans (log_after (log_refl s (fun ev => ev.call.isFetch = false))
        (.update d.addObj) _ _ _ rfl) (deletionBranch_no_fetch r env _ _)

theorem not_mem_tail_of_no_fetch {S0 S1 s : Store} {l : List Event} {k : NamespacedName}
    {e : Option GoError} (h0 : S0.log = s.log ++ l)
    (hl0 : (⟨.getDummy k, e⟩ : Event) ∉ l)
    (h1 : ∃ t, S1.log = S0.log ++ t ∧ ∀ ev ∈ t, ev.call.isFetch = false) :
    (⟨.getDummy k, e⟩ : Event) ∉ passLog s S1 := by
  obtain ⟨t, hl, hp⟩ := h1
  rw [passLog_of_log (l := l ++ t) (by rw [hl, h0, List.append_assoc])]
  intro hmem
  rcases List.mem_append.1 hmem with h | h
  · exact hl0 h
  · have := hp _ h
    simp [Call.isFetch] at this

/-- A fetch that reports `NotFound` ends the pass with success: it is the first call, or the
third, after the echo write. -/
theorem Reconcile_not_found_aux (r : DummyReconciler) (env : Env)
    (req : NamespacedName) (s : Store) (k : NamespacedName) (e : GoError)
    (hnf : (⟨.getDummy k, some e⟩ : Event) ∈ passLog s (Reconcile r env req s).2)
    (he : IsNotFound e = true) :
    (Reconcile r env req s).1 = ({ Requeue := false }, none) ∧
    k = req ∧
    (Reconcile r env req s).2.pods = s.pods ∧
    ((passLog s (Reconcile r env req s).2 = [⟨.getDummy req, some e⟩] ∧
        (Reconcile r env req s).2.dummies = s.dummies) ∨
      ∃ d, findIn s.dummies req = some d ∧
        passLog s (Reconcile r env req s).2 =
          [⟨.getDummy req, none⟩, ⟨.statusUpdate d.echoObj, none⟩,
            ⟨.getDummy req, some e⟩] ∧
        (Reconcile r env req s).2.dummies = putIn s.dummies d.echoed) := by
  rcases s.fault_cases with hf | ⟨f, hf⟩
  swap
  · rw [Reconcile_fault r env hf] at hnf ⊢
    have hlog : ∀ res : Result × Option GoError,
        passLog s (res, s.after (.getDummy req) (some (.status f)) s.dummies s.pods).2 =
          [⟨.getDummy req, some (.status f)⟩] :=
      fun _ => passLog_of_log (Store.after_log _ _ _ _ _)
    have hev : k = req ∧ e = .status f := by
      split at hnf <;> (rw [hlog] at hnf; simpa using hnf)
    obtain ⟨rfl, rfl⟩ := hev
    rw [if_pos he]
    exact ⟨rfl, rfl, rfl, Or.inl ⟨hlog _, rfl⟩⟩
  cases hd : findIn s.dummies req with
  | none =>
    rw [Reconcile_missing r env hf hd] at hnf ⊢
    have hlog : passLog s (s.after (.getDummy req) (some (.status .NotFound)) s.dummies s.pods) =
        [⟨.getDummy req, some (.status .NotFound)⟩] :=
      passLog_of_log (Store.after_log _ _ _ _ _)
    rw [hlog] at hnf
    have hev : k = req ∧ e = .status .NotFound := by simpa using hnf
    obtain ⟨rfl, rfl⟩ := hev
    exact ⟨rfl, rfl, rfl, Or.inl ⟨hlog, rfl⟩⟩
  | some d =>
    by_cases hecho : d.Status.SpecEcho = d.Spec.Message
    · exfalso
      rw [Reconcile_in_sync r env hf hd hecho] at hnf
      exact not_mem_tail_of_no_fetch (l := [⟨.getDummy req, none⟩])
        (Store.after_log _ _ _ _ _) (by simp) (ensureFinalizer_no_fetch r env _ _) hnf
    · rcases (s.after (.getDummy req) none s.dummies s.pods).fault_cases with hf2 | ⟨f2, hf2⟩
      swap
      · exfalso
        rw [Reconcile_echo_fault r env hf hd hecho hf2,
          passLog_after2 (l := []) (by simp)] at hnf
        simp at hnf
      rcases ((s.after (.getDummy req) none s.dummies s.pods).after (.statusUpdate d.echoObj)
        none (putIn s.dummies d.echoed) s.pods).fault_cases with hf3 | ⟨f3, hf3⟩
      swap
      · rw [Reconcile_refetch_fault r env hf hd hecho hf2 hf3] at hnf ⊢
        have hlog : ∀ res : Result × Option GoError,
            passLog s (res, ((s.after (.getDummy req) none s.dummies s.pods).after
              (.statusUpdate d.echoObj) none (putIn s.dummies d.echoed) s.pods).after
              (.getDummy req) (some (.status f3)) (putIn s.dummies d.echoed) s.pods).2 =
              [⟨.getDummy req, none⟩, ⟨.statusUpdate d.echoObj, none⟩,
                ⟨.getDummy req, some (.status f3)⟩] :=
          fun _ => passLog_of_log (by simp [Store.after_log])
        have hev : k = req ∧ e = .status f3 := by
          split at hnf <;> (rw [hlog] at hnf; simpa using hnf)
        obtain ⟨rfl, rfl⟩ := hev
        rw [if_pos he]
        exact ⟨rfl, rfl, rfl, Or.inr ⟨d, rfl, hlog _, rfl⟩⟩
      · exfalso
        rw [Reconcile_echoed r env hf hd hecho hf2 hf3] at hnf
        exact not_mem_tail_of_no_fetch
          (l := [⟨.getDummy req, none⟩, ⟨.statusUpdate d.echoObj, none⟩,
            ⟨.getDummy req, none⟩])
          (by simp [Store.after_log]) (by simp) (ensureFinalizer_no_fetch r env _ _) hnf

/-- C12: when a fetch of the Dummy reports `NotFound` in a pass, the pass returns success
without requeue and that fetch is its last call.  Either it is the first fetch, the only
call of the pass, and the store holds the objects it held before the pass; or it is the
fetch after the echo write, and the store holds the objects the echo write left. -/
theorem Reconcile_not_found_ends_pass (r : DummyReconciler) (env : Env)
    (req : NamespacedName) (s : Store) (k : NamespacedName) (e : GoError)
    (hnf : (⟨.getDummy k, some e⟩ : Event) ∈ passLog s (Reconcile r env req s).2)
    (he : IsNotFound e = true) :
    (Reconcile r env req s).1 = ({ Requeue := false }, none) ∧
    k = req ∧
    (Reconcile r env req s).2.pods = s.pods ∧
    ((passLog s (Reconcile r env req s).2 = [⟨.getDummy req, some e⟩] ∧
        (Reconcile r env req s).2.dummies = s.dummies) ∨
      ∃ d, findIn s.dummies req = some d ∧
        passLog s (Reconcile r env req s).2 =
          [⟨.getDummy req, none⟩, ⟨.statusUpdate d.echoObj, none⟩,
            ⟨.getDummy req, some e⟩] ∧
        (Reconcile r env req s).2.dummies = putIn s.dummies d.echoed) :=
  Reconcile_not_found_aux r env req s k e hnf he

theorem Reconcile_not_found_ends_pass_witness :
    findIn storeEmpty.dummies keyX = none ∧
    (Reconcile reconcilerOK envOK keyX storeEmpty).1 = ({ Requeue := false }, none) ∧
    passLog storeEmpty (Reconcile reconcilerOK envOK keyX storeEmpty).2 =
      [⟨.getDummy keyX, some (.status .NotFound)⟩] ∧
    (Reconcile reconcilerOK envOK keyX storeRefetchNotFound).1 =
      ({ Requeue := false }, none) ∧
    (Reconcile reconcilerOK envOK keyX storeRefetchNotFound).2.pods = [] :=
  ⟨by decide,
    (Reconcile_not_found_ends_pass reconcilerOK envOK keyX storeEmpty keyX
      (.status .NotFound) (by decide) rfl).1,
    by decide,
    (Reconcile_not_found_ends_pass reconcilerOK envOK keyX storeRefetchNotFound keyX
      (.status .NotFound) (by decide) rfl).1,
    (Reconcile_not_found_ends_pass reconcilerOK envOK keyX storeRefetchNotFound keyX
      (.status .NotFound) (by decide) rfl).2.2.1⟩

/-! ## Theorems: status echo and finalizer after a successful pass (C13, C14) -/

theorem createChild_dummies (r : DummyReconciler) (env : Env) (d : Dummy) (s : Store) :
    (Reconcile.createChild r env d s).2.dummies = s.dummies := by
  unfold Reconcile.createChild
  split
  · rfl
  · split
    · rename_i heq
      obtain ⟨-, rfl⟩ := Store.Create_eq.1 heq
      rfl
    · rename_i heq
      obtain ⟨-, rfl⟩ := Store.Create_eq.1 heq
      rfl

/-- The Dummies the child step leaves: those it found, or those with the phase of the pod
written into the status of the Dummy of the pass. -/
theorem childSync_dummies (r : DummyReconciler) (env : Env) (D : Dummy) (S : Store)
    (hsync : findIn S.dummies D.key = some D) :
    (Reconcile.childSync r env D S).2.dummies = S.dummies ∨
    ∃ ph, (Reconcile.childSync r env D S).2.dummies = putIn S.dummies (D.mirrored ph) := by
  rcases S.fault_cases with hf | ⟨f, hf⟩
  · cases hp : findPodIn S.pods D.lookupKey with
    | none =>
      rw [childSync_missing r env hf hp, createChild_dummies]
      exact Or.inl rfl
    | some p =>
      by_cases hph : p.Phase = D.Status.PodStatus
      · rw [childSync_in_sync r env hf hp hph]
        exact Or.inl rfl
      · rcases (S.after (.getPod D.lookupKey) none S.dummies S.pods).fault_cases with
          hf2 | ⟨f2, hf2⟩
        · rw [childSync_mirror r env hf hp hph hf2 hsync]
          exact Or.inr ⟨p.Phase, rfl⟩
        · rw [childSync_mirror_fault r env hf hp hph hf2]
          exact Or.inl rfl
  · rw [childSync_fault r env hf]
    split
    · rw [createChild_dummies]
      exact Or.inl rfl
    · exact Or.inl rfl

/-- The Dummy a successful tail of a pass (deletion branch, child step) leaves under the key:
spec, echo and deletion marker of the Dummy of the pass, and its finalizers, without the
finalizer of the controller when the Dummy is being deleted. -/
theorem deletionBranch_success_state (r : DummyReconciler) (env : Env) (req : NamespacedName)
    (D : Dummy) (S : Store) (d1 : Dummy)
    (hsync : findIn S.dummies req = some D) (hkey : D.key = req)
    (htok : ContainsFinalizer D dummyFinalizer = true)
    (hres : (Reconcile.deletionBranch r env D S).1 = ({}, none))
    (hd1 : findIn (Reconcile.deletionBranch r env D S).2.dummies req = some d1) :
    d1.Spec = D.Spec ∧ d1.Status.SpecEcho = D.Status.SpecEcho ∧
    d1.DeletionTimestamp = D.DeletionTimestamp ∧
    d1.Finalizers =
      if D.DeletionTimestamp.isSome = true then
        D.Finalizers.filter (fun e => !(e == dummyFinalizer))
      else D.Finalizers := by
  have hsync1 : findIn S.dummies D.key = some D := by rw [hkey]; exact hsync
  by_cases hdel : D.DeletionTimestamp.isSome = true
  · rcases S.fault_cases with hf | ⟨f, hf⟩
    · rw [deletionBranch_removed r env hdel htok hf hsync1] at hd1
      simp only [Store.after_dummies] at hd1
      rw [findIn_after_removed hsync hdel] at hd1
      split at hd1
      · cases hd1
      · cases hd1
        exact ⟨rfl, rfl, rfl, by rw [if_pos hdel]; rfl⟩
    · rw [deletionBranch_fault r env hdel htok hf] at hres
      simp at hres
  · have hl0 : ¬ (D.DeletionTimestamp.isSome = true ∧
        ContainsFinalizer D dummyFinalizer = true) := fun h => hdel h.1
    rw [deletionBranch_live r env hl0] at hd1
    rcases childSync_dummies r env D S hsync1 with h | ⟨ph, h⟩
    · rw [h, hsync] at hd1
      cases hd1
      exact ⟨rfl, rfl, rfl, by rw [if_neg hdel]⟩
    · have hk2 : (D.mirrored ph).key = req := hkey
      rw [h, findIn_putIn_self hsync hk2] at hd1
      cases hd1
      exact ⟨rfl, rfl, rfl, by rw [if_neg hdel]; rfl⟩

theorem ensureFinalizer_head (r : DummyReconciler) (env : Env) (req : NamespacedName)
    (s : Store) (d D0 : Dummy) (S0 : Store) (h0 : Fetched s req d D0 S0) :
    (∃ e, (Reconcile.ensureFinalizer r env D0 S0).1 = ({}, some e)) ∨
    ∃ D S, Reconcile.ensureFinalizer r env D0 S0 = Reconcile.deletionBranch r env D S ∧
      Prepared s req d D S := by
  have hsync : findIn S0.dummies D0.key = some D0 := by rw [h0.key]; exact h0.sync
  by_cases htok : ContainsFinalizer D0 dummyFinalizer = true
  · refine Or.inr ⟨D0, S0, ensureFinalizer_present r env htok, ?_⟩
    have hc : ContainsFinalizer d dummyFinalizer = true := by
      simpa [ContainsFinalizer, h0.finalizers] using htok
    exact
      { sync := h0.sync, key := h0.key, ident := h0.ident, deletion := h0.deletion,
        spec := h0.spec, echo := h0.echo, podStatus := h0.podStatus, token := htok,
        finalizers := by rw [h0.finalizers, if_pos hc], pods := h0.pods,
        log := h0.log, faults := h0.faults }
  · simp only [Bool.not_eq_true] at htok
    have hc : ContainsFinalizer d dummyFinalizer = false := by
      simpa [ContainsFinalizer, h0.finalizers] using htok
    rcases S0.fault_cases with hf | ⟨f, hf⟩
    · refine Or.inr ⟨D0.added, _, ensureFinalizer_added r env htok hf hsync, ?_⟩
      have hk : D0.added.key = req := h0.key
      exact
        { sync := findIn_putIn_self h0.sync hk, key := hk, ident := h0.ident,
          deletion := h0.deletion, spec := h0.spec, echo := h0.echo,
          podStatus := h0.podStatus, token := ContainsFinalizer_added D0,
          finalizers := by
            rw [if_neg (by simp [hc])]
            show D0.Finalizers ++ [dummyFinalizer] = _
            rw [h0.finalizers]
          pods := h0.pods,
          log := log_after h0.log (.update D0.addObj) none (putIn S0.dummies D0.added)
            S0.pods ⟨rfl, rfl⟩,
          faults := Store.after_drop h0.faults (.update D0.addObj) none
            (putIn S0.dummies D0.added) S0.pods }
    · left
      rw [ensureFinalizer_fault r env htok hf]
      exact ⟨_, rfl⟩

/-- How a pass gets through its first three steps: it fails, or a fetch reports `NotFound`,
or it reaches the deletion branch with the Dummy it prepared. -/
theorem Reconcile_head (r : DummyReconciler) (env : Env) (req : NamespacedName) (s : Store) :
    (∃ e, (Reconcile r env req s).1 = ({}, some e)) ∨
    (∃ e, IsNotFound e = true ∧
      (⟨.getDummy req, some e⟩ : Event) ∈ passLog s (Reconcile r env req s).2) ∨
    ∃ d D S, findIn s.dummies req = some d ∧
      Reconcile r env req s = Reconcile.deletionBranch r env D S ∧ Prepared s req d D S := by
  rcases s.fault_cases with hf | ⟨f, hf⟩
  swap
  · rw [Reconcile_fault r env hf]
    by_cases hn : IsNotFound (.status f) = true
    · rw [if_pos hn]
      refine Or.inr (Or.inl ⟨_, hn, ?_⟩)
      rw [passLog_of_log (Store.after_log _ _ _ _ _)]
      simp
    · rw [if_neg hn]
      exact Or.inl ⟨_, rfl⟩
  cases hd : findIn s.dummies req with
  | none =>
    rw [Reconcile_missing r env hf hd]
    refine Or.inr (Or.inl ⟨.status .NotFound, rfl, ?_⟩)
    rw [passLog_of_log (Store.after_log _ _ _ _ _)]
    simp
  | some d =>
    have hk : d.key = req := findIn_key hd
    have hl1 := log_after (log_refl s (fun ev => ev.err = none ∧ ev.call.podKey = none))
      (.getDummy req) none s.dummies s.pods ⟨rfl, rfl⟩
    have hd1 := Store.after_drop (Store.drop_refl s) (.getDummy req) none s.dummies s.pods
    have hwrap : ∀ D0 S0, Fetched s req d D0 S0 →
        (∃ e, (Reconcile.ensureFinalizer r env D0 S0).1 = ({}, some e)) ∨
        (∃ e, IsNotFound e = true ∧ (⟨.getDummy req, some e⟩ : Event) ∈
          passLog s (Reconcile.ensureFinalizer r env D0 S0).2) ∨
        ∃ d' D S, some d = some d' ∧
          Reconcile.ensureFinalizer r env D0 S0 = Reconcile.deletionBranch r env D S ∧
          Prepared s req d' D S := by
      intro D0 S0 h0
      rcases ensureFinalizer_head r env req s d D0 S0 h0 with h | ⟨D, S, h1, h2⟩
      · exact Or.inl h
      · exact Or.inr (Or.inr ⟨d, D, S, rfl, h1, h2⟩)
    by_cases hecho : d.Status.SpecEcho = d.Spec.Message
    · rw [Reconcile_in_sync r env hf hd hecho]
      exact hwrap d _
        { sync := hd, key := hk, ident := ⟨rfl, rfl, rfl⟩, deletion := rfl, spec := rfl,
          echo := hecho, podStatus := rfl, finalizers := rfl, pods := rfl,
          log := hl1, faults := hd1 }
    · rcases (s.after (.getDummy req) none s.dummies s.pods).fault_cases with hf2 | ⟨f2, hf2⟩
      swap
      · rw [Reconcile_echo_fault r env hf hd hecho hf2]
        exact Or.inl ⟨_, rfl⟩
      have hl2 := log_after hl1 (.statusUpdate d.echoObj) none (putIn s.dummies d.echoed) s.pods
        ⟨rfl, rfl⟩
      have hd2 := Store.after_drop hd1 (.statusUpdate d.echoObj) none (putIn s.dummies d.echoed)
        s.pods
      rcases ((s.after (.getDummy req) none s.dummies s.pods).after (.statusUpdate d.echoObj)
        none (putIn s.dummies d.echoed) s.pods).fault_cases with hf3 | ⟨f3, hf3⟩
      swap
      · rw [Reconcile_refetch_fault r env hf hd hecho hf2 hf3]
        by_cases hn : IsNotFound (.status f3) = true
        · rw [if_pos hn]
          refine Or.inr (Or.inl ⟨_, hn, ?_⟩)
          rw [passLog_of_log (l := [⟨.getDummy req, none⟩, ⟨.statusUpdate d.echoObj, none⟩,
            ⟨.getDummy req, some (.status f3)⟩]) (by simp [Store.after_log])]
          simp
        · rw [if_neg hn]
          exact Or.inl ⟨_, rfl⟩
      rw [Reconcile_echoed r env hf hd hecho hf2 hf3]
      have hk2 : d.echoed.key = req := hk
      exact hwrap d.echoed _
        { sync := findIn_putIn_self hd hk2, key := hk2, ident := ⟨rfl, rfl, rfl⟩,
          deletion := rfl, spec := rfl, echo := rfl, podStatus := rfl, finalizers := rfl,
          pods := rfl,
          log := log_after hl2 (.getDummy req) none (putIn s.dummies d.echoed) s.pods
            ⟨rfl, rfl⟩,
          faults := Store.after_drop hd2 (.getDummy req) none (putIn s.dummies d.echoed)
            s.pods }

/-- C14 (counterexample): the fresh Dummy, whose fetch after the echo write is answered
`NotFound`.  The pass returns success and stops there (lines 92-96); the store holds the
Dummy with the echo written, its deletion marker is not set and it does not hold the
finalizer of the controller. -/
theorem Reconcile_refetch_not_found_skips_finalizer :
    (Reconcile reconcilerOK envOK keyX storeRefetchNotFound).1 = ({ Requeue := false }, none) ∧
    findIn (Reconcile reconcilerOK envOK keyX storeRefetchNotFound).2.dummies keyX =
      some dummyFresh.echoed ∧
    dummyFresh.echoed.DeletionTimestamp = none ∧
    dummyFinalizer ∉ dummyFresh.echoed.Finalizers := by
  decide

/-- C14 (amended): after a pass that returns success, in which no fetch of the Dummy was
answered `NotFound`, and that leaves the Dummy in the store: a Dummy whose deletion marker
is not set holds the finalizer of the controller, a Dummy whose deletion marker is set does
not. -/
theorem Reconcile_finalizer_invariant (r : DummyReconciler) (env : Env) (req : NamespacedName)
    (s : Store) (d1 : Dummy)
    (hres : (Reconcile r env req s).1 = ({ Requeue := false }, none))
    (hget : ∀ ev ∈ passLog s (Reconcile r env req s).2, ev.call.isFetch = true → ev.err = none)
    (hd1 : findIn (Reconcile r env req s).2.dummies req = some d1) :
    (d1.DeletionTimestamp = none → dummyFinalizer ∈ d1.Finalizers) ∧
    (d1.DeletionTimestamp.isSome = true → dummyFinalizer ∉ d1.Finalizers) := by
  rcases Reconcile_head r env req s with ⟨e, h⟩ | ⟨e, -, hnf⟩ | ⟨d, D, S, hd, heq, hp⟩
  · rw [h] at hres
    simp at hres
  · have := hget _ hnf rfl
    simp at this
  · rw [heq] at hres hd1
    obtain ⟨-, -, h3, h4⟩ :=
      deletionBranch_success_state r env req D S d1 hp.sync hp.key hp.token hres hd1
    constructor
    · intro hlive
      have hn : ¬ D.DeletionTimestamp.isSome = true := by
        rw [← h3, hlive]
        simp
      rw [h4, if_neg hn]
      exact mem_of_ContainsFinalizer hp.token
    · intro hdel
      rw [h3] at hdel
      rw [h4, if_pos hdel]
      exact mem_filter_ne_self _ _

theorem Reconcile_finalizer_invariant_witness :
    (Reconcile reconcilerOK envOK keyX storeFresh).1 = ({ Requeue := false }, none) ∧
    findIn (Reconcile reconcilerOK envOK keyX storeFresh).2.dummies keyX =
      some dummySettled ∧
    dummyFinalizer ∈ dummySettled.Finalizers ∧
    (Reconcile reconcilerOK envOK keyX storeDeleting).1 = ({ Requeue := false }, none) ∧
    findIn (Reconcile reconcilerOK envOK keyX storeDeleting).2.dummies keyX =
      some dummyReleased ∧
    dummyFinalizer ∉ dummyReleased.Finalizers :=
  ⟨by decide, by decide,
    (Reconcile_finalizer_invariant reconcilerOK envOK keyX storeFresh dummySettled (by decide)
      (by decide) (by decide)).1 (by decide),
    by decide, by decide,
    (Reconcile_finalizer_invariant reconcilerOK envOK keyX storeDeleting dummyReleased
      (by decide) (by decide) (by decide)).2 (by decide)⟩

/-! ## Theorems: writes and fetches in a pass (C15) -/

set_option maxHeartbeats 1000000 in
theorem Reconcile_log_pairs_aux (r : DummyReconciler) (env : Env) (req : NamespacedName)
    (s s1 : Store) (res : Result × Option GoError)
    (h : Reconcile r env req s = (res, s1)) (x y : Event)
    (hxy : (x, y) ∈ (passLog s s1).zip (passLog s s1).tail) :
    (∀ obj, x = ⟨.statusUpdate obj, none⟩ → y.call = .getDummy req) ∧
    (∀ obj, x = ⟨.update obj, none⟩ →
      (∃ obj1, y.call = .update obj1) ∨ ∃ key, y.call = .getPod key) := by
  simp only [Reconcile, Reconcile.ensureFinalizer, Reconcile.deletionBranch,
    Reconcile.childSync, Reconcile.createChild] at h
  repeat' split at h
  all_goals (cases h)
  all_goals (simp only [Store.Get_eq, Store.GetPod_eq, Store.Create_eq, Store.StatusUpdate_eq,
    Store.Update_eq, AddFinalizer_eq, RemoveFinalizer_eq] at *)
  all_goals (cases_type* And)
  all_goals (subst_vars)
  all_goals (simp only [passLog, Store.after_log, List.append_assoc, List.drop_left,
    List.singleton_append, List.cons_append, List.nil_append, errOf, List.tail_cons,
    List.zip_cons_cons, List.zip_nil_right, List.zip_nil_left, List.tail_nil] at hxy)
  all_goals (simp only [List.mem_cons, List.mem_singleton, List.not_mem_nil, Prod.mk.injEq,
    or_false] at hxy)
  all_goals (try cases_type* Or)
  all_goals (try cases_type* And)
  all_goals (subst_vars)
  all_goals (first
    | (exact False.elim hxy)
    | (constructor <;> intro obj hx <;>
        first
        | rfl
        | (exact Or.inl ⟨_, rfl⟩)
        | (exact Or.inr ⟨_, rfl⟩)
        | (simp at hx)))

theorem writes_ok_append {l t : List Event} (hl : ∀ ev ∈ l, ev.err = none)
    (ht : ∀ ev ∈ t, ev.call.isWrite = true → ev.err = none) :
    ∀ ev ∈ l ++ t, ev.call.isWrite = true → ev.err = none := by
  intro ev hev hw
  rcases List.mem_append.1 hev with h | h
  · exact hl ev h
  · exact ht ev h hw

/-- On a store where no call is made to fail, no write of the Dummy fails in a pass: each
write carries the version the store holds. -/
theorem Reconcile_quiet_writes (r : DummyReconciler) (env : Env) (req : NamespacedName)
    (s : Store) (hq : s.quiet) :
    ∀ ev ∈ passLog s (Reconcile r env req s).2, ev.call.isWrite = true → ev.err = none := by
  cases hd : findIn s.dummies req with
  | none =>
    rw [Reconcile_missing r env (Store.quiet_fault hq) hd,
      passLog_of_log (Store.after_log _ _ _ _ _)]
    simp [Call.isWrite]
  | some d =>
    rcases Reconcile_prefix r env req s d hd with hee | ⟨D, S, heq, hp⟩
    · exact absurd hq hee.noisy
    · have hqS : S.quiet := Store.quiet_of_drop hq hp.faults
      have hf := Store.quiet_fault hqS
      have hsync : findIn S.dummies D.key = some D := by rw [hp.key]; exact hp.sync
      obtain ⟨l, hl, hlp⟩ := hp.log
      have hl1 : ∀ ev ∈ l, ev.err = none := fun ev h => (hlp ev h).1
      rw [heq]
      by_cases hdel : D.DeletionTimestamp.isSome = true
      · rw [deletionBranch_removed r env hdel hp.token hf hsync, passLog_after1 hl]
        exact writes_ok_append hl1 (by simp)
      · have hl0 : ¬ (D.DeletionTimestamp.isSome = true ∧
            ContainsFinalizer D dummyFinalizer = true) := fun h => hdel h.1
        rw [deletionBranch_live r env hl0]
        cases hp0 : findPodIn S.pods D.lookupKey with
        | none =>
          rw [childSync_missing r env hf hp0]
          have hq1 := Store.quiet_after hqS (.getPod D.lookupKey) (some (.status .NotFound))
            S.dummies S.pods
          cases hdef : r.createPodDefinition env D with
          | error e =>
            rw [createChild_definition_error r env hdef, passLog_after1 hl]
            exact writes_ok_append hl1 (by simp [Call.isWrite])
          | ok pod =>
            cases hpp : findPodIn (S.after (.getPod D.lookupKey) (some (.status .NotFound))
              S.dummies S.pods).pods pod.key with
            | none =>
              rw [createChild_fresh r env hdef (Store.quiet_fault hq1) hpp, passLog_after2 hl]
              exact writes_ok_append hl1 (by simp [Call.isWrite])
            | some p1 =>
              rw [createChild_exists r env hdef (Store.quiet_fault hq1) hpp, passLog_after2 hl]
              exact writes_ok_append hl1 (by simp [Call.isWrite])
        | some p =>
          by_cases hph : p.Phase = D.Status.PodStatus
          · rw [childSync_in_sync r env hf hp0 hph, passLog_after1 hl]
            exact writes_ok_append hl1 (by simp [Call.isWrite])
          · have hq1 := Store.quiet_after hqS (.getPod D.lookupKey) none S.dummies S.pods
            rw [childSync_mirror r env hf hp0 hph (Store.quiet_fault hq1) hsync,
              passLog_after2 hl]
            exact writes_ok_append hl1 (by simp [Call.isWrite])

/-- C15 (counterexample): the fresh Dummy with a running pod under the name the pass looks
up.  Every call succeeds; the update that adds the finalizer is followed by the pod lookup
and by the status write that mirrors the phase: two writes of the Dummy with no fetch of the
Dummy between them, and the pass does not return after the first. -/
theorem Reconcile_writes_without_fetch :
    passLog storeFreshLookedUp (Reconcile reconcilerOK envOK keyX storeFreshLookedUp).2 =
      [⟨.getDummy keyX, none⟩,
       ⟨.statusUpdate dummyFresh.echoObj, none⟩,
       ⟨.getDummy keyX, none⟩,
       ⟨.update dummyFresh.echoed.addObj, none⟩,
       ⟨.getPod keyX, none⟩,
       ⟨.statusUpdate (dummyFresh.echoed.added.mirrorObj "Running"), none⟩] ∧
    (Reconcile reconcilerOK envOK keyX storeFreshLookedUp).1 = ({ Requeue := false }, none) := by
  decide

/-- C15 (amended): in every pass a successful status write of the Dummy is the last call or
is followed at once by a fetch of the Dummy; a successful update is the last call or is
followed at once by another update or by the pod lookup, not by a fetch; and on a store
where no call is made to fail no write of the pass fails. -/
theorem Reconcile_write_then_fetch (r : DummyReconciler) (env : Env) (req : NamespacedName)
    (s : Store) :
    (∀ x y, (x, y) ∈ (passLog s (Reconcile r env req s).2).zip
        (passLog s (Reconcile r env req s).2).tail →
      (∀ obj, x = ⟨.statusUpdate obj, none⟩ → y.call = .getDummy req) ∧
      (∀ obj, x = ⟨.update obj, none⟩ →
        (∃ obj1, y.call = .update obj1) ∨ ∃ key, y.call = .getPod key)) ∧
    (s.quiet → ∀ ev ∈ passLog s (Reconcile r env req s).2,
      ev.call.isWrite = true → ev.err = none) :=
  ⟨fun x y hxy => Reconcile_log_pairs_aux r env req s _ _ rfl x y hxy,
    Reconcile_quiet_writes r env req s⟩

theorem Reconcile_write_then_fetch_witness :
    ((⟨.statusUpdate dummyFresh.echoObj, none⟩, ⟨.getDummy keyX, none⟩) : Event × Event) ∈
      (passLog storeFreshLookedUp
        (Reconcile reconcilerOK envOK keyX storeFreshLookedUp).2).zip
      (passLog storeFreshLookedUp
        (Reconcile reconcilerOK envOK keyX storeFreshLookedUp).2).tail ∧
    storeFreshLookedUp.quiet ∧
    ∀ ev ∈ passLog storeFreshLookedUp
        (Reconcile reconcilerOK envOK keyX storeFreshLookedUp).2,
      ev.call.isWrite = true → ev.err = none :=
  ⟨by decide, by decide,
    (Reconcile_write_then_fetch reconcilerOK envOK keyX storeFreshLookedUp).2 (by decide)⟩

/-! ## Theorems: a pass cut off and resumed (C16) -/

/-- C16: the fresh Dummy, no pod.  The uninterrupted pass succeeds with three writes: the
echo (call 2), the finalizer (call 4) and the create of the pod (call 6).  Cut off after
call 2 or call 4, the next pass succeeds and leaves the Dummy (version apart) and the pods
of the uninterrupted pass.  Cut off after call 6, the next pass looks the pod up under
`ns/x`, does not find the `ns/x-pod` that exists, and fails on the create. -/
theorem Reconcile_resume_after_create_fails :
    (Reconcile reconcilerOK envOK keyX storeFresh).1 = ({ Requeue := false }, none) ∧
    (passLog storeFresh (Reconcile reconcilerOK envOK keyX storeFresh).2).map
        (fun ev => (ev.call.isMutation, ev.err)) =
      [(false, none), (true, none), (false, none), (true, none),
       (false, some (.status .NotFound)), (true, none)] ∧
    (∀ n ∈ [2, 4],
      (Reconcile reconcilerOK envOK keyX (cutOff reconcilerOK envOK keyX storeFresh n)).1 =
        ({ Requeue := false }, none) ∧
      (Reconcile reconcilerOK envOK keyX
          (cutOff reconcilerOK envOK keyX storeFresh n)).2.dummies.map Dummy.unversioned =
        (Reconcile reconcilerOK envOK keyX storeFresh).2.dummies.map Dummy.unversioned ∧
      (Reconcile reconcilerOK envOK keyX (cutOff reconcilerOK envOK keyX storeFresh n)).2.pods =
        (Reconcile reconcilerOK envOK keyX storeFresh).2.pods) ∧
    (cutOff reconcilerOK envOK keyX storeFresh 6).dummies =
      (Reconcile reconcilerOK envOK keyX storeFresh).2.dummies ∧
    (cutOff reconcilerOK envOK keyX storeFresh 6).pods =
      (Reconcile reconcilerOK envOK keyX storeFresh).2.pods ∧
    (Reconcile reconcilerOK envOK keyX (cutOff reconcilerOK envOK keyX storeFresh 6)).1 =
      ({ Requeue := false }, some (.status .AlreadyExists)) := by
  decide

/-! ## Theorems: no pass asks for a requeue (C17) -/

theorem createChild_plain (r : DummyReconciler) (env : Env) (d : Dummy) (s : Store) :
    (Reconcile.createChild r env d s).plain := by
  unfold Reconcile.createChild Outcome.plain
  split
  · exact Or.inr ⟨_, rfl⟩
  · split
    · exact Or.inr ⟨_, rfl⟩
    · exact Or.inl rfl

theorem childSync_plain (r : DummyReconciler) (env : Env) (d : Dummy) (s : Store) :
    (Reconcile.childSync r env d s).plain := by
  unfold Reconcile.childSync
  split
  · split
    · exact createChild_plain r env d _
    · exact Or.inl rfl
  · split
    · simp only
      split
      · exact Or.inr ⟨_, rfl⟩
      · exact Or.inl rfl
    · exact Or.inl rfl

theorem deletionBranch_plain (r : DummyReconciler) (env : Env) (d : Dummy) (s : Store) :
    (Reconcile.deletionBranch r env d s).plain := by
  by_cases h : d.DeletionTimestamp.isSome = true ∧ ContainsFinalizer d dummyFinalizer = true
  · simp only [Reconcile.deletionBranch, h.1, h.2, Bool.and_self, if_true,
      RemoveFinalizer_of_contains h.2]
    split
    · exact Or.inr ⟨_, rfl⟩
    · exact Or.inl rfl
  · rw [deletionBranch_live r env h]
    exact childSync_plain r env d s

theorem ensureFinalizer_plain (r : DummyReconciler) (env : Env) (d : Dummy) (s : Store) :
    (Reconcile.ensureFinalizer r env d s).plain := by
  by_cases h : ContainsFinalizer d dummyFinalizer = true
  · rw [ensureFinalizer_present r env h]
    exact deletionBranch_plain r env d s
  · simp only [Bool.not_eq_true] at h
    simp only [Reconcile.ensureFinalizer, h, Bool.not_false, if_true,
      AddFinalizer_of_not_contains h]
    split
    · exact Or.inr ⟨_, rfl⟩
    · exact deletionBranch_plain r env _ _

theorem Reconcile_plain (r : DummyReconciler) (env : Env) (req : NamespacedName) (s : Store) :
    (Reconcile r env req s).plain := by
  unfold Reconcile
  split
  · split
    · exact Or.inl rfl
    · exact Or.inr ⟨_, rfl⟩
  · split
    · simp only
      split
      · exact Or.inr ⟨_, rfl⟩
      · split
        · split
          · exact Or.inl rfl
          · exact Or.inr ⟨_, rfl⟩
        · exact ensureFinalizer_plain r env _ _
    · exact ensureFinalizer_plain r env _ _

/-- C17: no pass returns a result with `Requeue` set: `AddFinalizer` reports a change
exactly when the finalizer is absent and `RemoveFinalizer` exactly when it is present, and
the pass calls the first only when the finalizer is absent and the second only when it is
present; every pass ends in plain success or in an error. -/
theorem Reconcile_never_requeues (r : DummyReconciler) (env : Env) (req : NamespacedName)
    (s : Store) (d : Dummy) :
    (Reconcile r env req s).1.1.Requeue = false ∧
    ((Reconcile r env req s).1 = ({ Requeue := false }, none) ∨
      ∃ e, (Reconcile r env req s).1 = ({ Requeue := false }, some e)) ∧
    (AddFinalizer d dummyFinalizer).1 = !ContainsFinalizer d dummyFinalizer ∧
    (RemoveFinalizer d dummyFinalizer).1 = ContainsFinalizer d dummyFinalizer := by
  refine ⟨?_, Reconcile_plain r env req s, ?_, ?_⟩
  · rcases Reconcile_plain r env req s with h | ⟨e, h⟩ <;> rw [h]
  · exact (AddFinalizer_eq.1 rfl).1
  · exact (RemoveFinalizer_eq.1 rfl).1

/-! ## Theorems: a deleting Dummy without the finalizer (C18) -/

theorem filter_append_token {l : List String} {x : String} (h : x ∉ l) :
    (l ++ [x]).filter (fun e => !(e == x)) = l := by
  rw [List.filter_append]
  have h1 : l.filter (fun e => !(e == x)) = l := by
    rw [List.filter_eq_self]
    intro a ha
    have : a ≠ x := fun e => h (e ▸ ha)
    simpa using this
  simp [h1]

theorem not_contains_of_not_mem {d : Dummy} {f : String} (h : f ∉ d.Finalizers) :
    ContainsFinalizer d f = false := by
  cases hc : ContainsFinalizer d f with
  | false => rfl
  | true => exact absurd (mem_of_ContainsFinalizer hc) h

/-- The tail of a pass over a Dummy that is being deleted and does not hold the finalizer:
an update that adds the finalizer and, when it succeeds, an update that removes it. -/
theorem ensureFinalizer_add_remove (r : DummyReconciler) (env : Env) (d : Dummy) (s : Store)
    (hsync : findIn s.dummies d.key = some d)
    (hdel : d.DeletionTimestamp.isSome = true)
    (htok : ContainsFinalizer d dummyFinalizer = false) :
    (∃ e, Reconcile.ensureFinalizer r env d s =
      (({}, some e), s.after (.update d.addObj) (some e) s.dummies s.pods)) ∨
    (∃ e, Reconcile.ensureFinalizer r env d s =
      (({}, some e),
        (s.after (.update d.addObj) none (putIn s.dummies d.added) s.pods).after
          (.update d.added.removeObj) (some e) (putIn s.dummies d.added) s.pods)) ∨
    Reconcile.ensureFinalizer r env d s =
      (({}, none),
        (s.after (.update d.addObj) none (putIn s.dummies d.added) s.pods).after
          (.update d.added.removeObj) none
          (dummiesAfterUpdate (putIn s.dummies d.added) (.ok d.added.removed))
          (podsAfterUpdate s.pods (.ok d.added.removed))) := by
  rcases s.fault_cases with hf | ⟨f, hf⟩
  swap
  · exact Or.inl ⟨_, ensureFinalizer_fault r env htok hf⟩
  rw [ensureFinalizer_added r env htok hf hsync]
  have hdel2 : d.added.DeletionTimestamp.isSome = true := hdel
  have hk : d.added.key = d.key := rfl
  have hsync2 : findIn (s.after (.update d.addObj) none (putIn s.dummies d.added)
      s.pods).dummies d.added.key = some d.added := by
    simp only [Store.after_dummies]
    exact findIn_putIn_self hsync hk
  rcases (s.after (.update d.addObj) none (putIn s.dummies d.added) s.pods).fault_cases with
    hf2 | ⟨f2, hf2⟩
  · exact Or.inr (Or.inr
      (deletionBranch_removed r env hdel2 (ContainsFinalizer_added d) hf2 hsync2))
  · exact Or.inr (Or.inl
      ⟨_, deletionBranch_fault r env hdel2 (ContainsFinalizer_added d) hf2⟩)

/-- What an add followed by a remove leaves under the key: the Dummy with the finalizers
it had, or nothing when it had none. -/
theorem add_remove_store_facts {ds : List Dummy} {d : Dummy} {req : NamespacedName}
    (hd : findIn ds req = some d) (hdel : d.DeletionTimestamp.isSome = true)
    (hno : dummyFinalizer ∉ d.Finalizers) :
    (findIn (dummiesAfterUpdate (putIn ds d.added) (.ok d.added.removed)) req).map
        (fun x => x.Finalizers) =
      if d.Finalizers = [] then none else some d.Finalizers := by
  have hk0 := findIn_key hd
  have hk : d.added.key = req := hk0
  have hfil : d.added.Finalizers.filter (fun e => !(e == dummyFinalizer)) = d.Finalizers :=
    filter_append_token hno
  rw [findIn_after_removed (findIn_putIn_self hd hk) hdel, hfil]
  split
  · rfl
  · simp only [Option.map_some', Option.some.injEq]
    exact hfil

/-- C18: for a Dummy whose deletion marker is set and that does not hold the finalizer of
the controller, a pass in which every store call succeeds returns success; its last two
calls are updates, the first writing the finalizers with the finalizer added, the second
writing the finalizers the Dummy started with, and no earlier call is an update; the store
then holds the Dummy with the finalizers it started with (or no longer holds it, when it
had none); no call of the pass reads or creates a pod. -/
theorem Reconcile_add_then_remove (r : DummyReconciler) (env : Env) (req : NamespacedName)
    (s : Store) (d : Dummy)
    (hd : findIn s.dummies req = some d)
    (hdel : d.DeletionTimestamp.isSome = true)
    (hno : dummyFinalizer ∉ d.Finalizers)
    (hok : ∀ ev ∈ passLog s (Reconcile r env req s).2, ev.err = none) :
    (Reconcile r env req s).1 = ({ Requeue := false }, none) ∧
    (∃ l objA objR,
      passLog s (Reconcile r env req s).2 =
        l ++ [⟨.update objA, none⟩, ⟨.update objR, none⟩] ∧
      (∀ ev ∈ l, ∀ o, ev.call ≠ .update o) ∧
      objA.key = req ∧ objA.Finalizers = d.Finalizers ++ [dummyFinalizer] ∧
      objR.key = req ∧ objR.Finalizers = d.Finalizers) ∧
    (findIn (Reconcile r env req s).2.dummies req).map (fun x => x.Finalizers) =
      (if d.Finalizers = [] then none else some d.Finalizers) ∧
    (∀ ev ∈ passLog s (Reconcile r env req s).2, ev.call.podKey = none) := by
  have hk : d.key = req := findIn_key hd
  have htok : ContainsFinalizer d dummyFinalizer = false := not_contains_of_not_mem hno
  rcases s.fault_cases with hf | ⟨f, hf⟩
  swap
  · exfalso
    rw [Reconcile_fault r env hf] at hok
    split at hok <;> simp [passLog, Store.after_log] at hok
  by_cases hecho : d.Status.SpecEcho = d.Spec.Message
  · rw [Reconcile_in_sync r env hf hd hecho] at hok ⊢
    rcases ensureFinalizer_add_remove r env d (s.after (.getDummy req) none s.dummies s.pods)
        (by rw [hk]; exact hd) hdel htok with ⟨e, h⟩ | ⟨e, h⟩ | h
    · exfalso
      rw [h, passLog_after2 (l := []) (by simp)] at hok
      simp at hok
    · exfalso
      rw [h] at hok
      rw [passLog_of_log (l := [⟨.getDummy req, none⟩, ⟨.update d.addObj, none⟩,
        ⟨.update d.added.removeObj, some e⟩]) (by simp [Store.after_log])] at hok
      simp at hok
    · simp only [Store.after_dummies, Store.after_pods] at h
      rw [h]
      have hlog : passLog s (((s.after (.getDummy req) none s.dummies s.pods).after
          (.update d.addObj) none (putIn s.dummies d.added) s.pods).after
          (.update d.added.removeObj) none
          (dummiesAfterUpdate (putIn s.dummies d.added) (.ok d.added.removed))
          (podsAfterUpdate s.pods (.ok d.added.removed))) =
          [⟨.getDummy req, none⟩] ++
            [⟨.update d.addObj, none⟩, ⟨.update d.added.removeObj, none⟩] :=
        passLog_of_log (by simp [Store.after_log])
      refine ⟨rfl, ⟨_, d.addObj, d.added.removeObj, hlog, by simp, hk, rfl, hk,
        filter_append_token hno⟩, add_remove_store_facts hd hdel hno, ?_⟩
      rw [hlog]
      simp [Call.podKey]
  · rcases (s.after (.getDummy req) none s.dummies s.pods).fault_cases with hf2 | ⟨f2, hf2⟩
    swap
    · exfalso
      rw [Reconcile_echo_fault r env hf hd hecho hf2] at hok
      simp [passLog, Store.after_log] at hok
    rcases ((s.after (.getDummy req) none s.dummies s.pods).after (.statusUpdate d.echoObj)
      none (putIn s.dummies d.echoed) s.pods).fault_cases with hf3 | ⟨f3, hf3⟩
    swap
    · exfalso
      rw [Reconcile_refetch_fault r env hf hd hecho hf2 hf3] at hok
      split at hok <;> simp [passLog, Store.after_log] at hok
    rw [Reconcile_echoed r env hf hd hecho hf2 hf3] at hok ⊢
    have hk2 : d.echoed.key = req := hk
    have hd2 : findIn (putIn s.dummies d.echoed) req = some d.echoed :=
      findIn_putIn_self hd hk2
    have hdel2 : d.echoed.DeletionTimestamp.isSome = true := hdel
    have hno2 : dummyFinalizer ∉ d.echoed.Finalizers := hno
    have htok2 : ContainsFinalizer d.echoed dummyFinalizer = false := htok
    rcases ensureFinalizer_add_remove r env d.echoed
        (((s.after (.getDummy req) none s.dummies s.pods).after (.statusUpdate d.echoObj)
          none (putIn s.dummies d.echoed) s.pods).after (.getDummy req) none
          (putIn s.dummies d.echoed) s.pods)
        (by rw [hk2]; exact hd2) hdel2 htok2 with ⟨e, h⟩ | ⟨e, h⟩ | h
    · exfalso
      rw [h] at hok
      rw [passLog_of_log (l := [⟨.getDummy req, none⟩, ⟨.statusUpdate d.echoObj, none⟩,
        ⟨.getDummy req, none⟩, ⟨.update d.echoed.addObj, some e⟩])
        (by simp [Store.after_log])] at hok
      simp at hok
    · exfalso
      rw [h] at hok
      rw [passLog_of_log (l := [⟨.getDummy req, none⟩, ⟨.statusUpdate d.echoObj, none⟩,
        ⟨.getDummy req, none⟩, ⟨.update d.echoed.addObj, none⟩,
        ⟨.update d.echoed.added.removeObj, some e⟩]) (by simp [Store.after_log])] at hok
      simp at hok
    · simp only [Store.after_dummies, Store.after_pods] at h
      rw [h]
      have hlog : passLog s
          (((((s.after (.getDummy req) none s.dummies s.pods).after (.statusUpdate d.echoObj)
            none (putIn s.dummies d.echoed) s.pods).after (.getDummy req) none
            (putIn s.dummies d.echoed) s.pods).after
            (.update d.echoed.addObj) none
            (putIn (putIn s.dummies d.echoed) d.echoed.added) s.pods).after
            (.update d.echoed.added.removeObj) none
            (dummiesAfterUpdate (putIn (putIn s.dummies d.echoed) d.echoed.added)
              (.ok d.echoed.added.removed))
            (podsAfterUpdate s.pods (.ok d.echoed.added.removed))) =
          [⟨.getDummy req, none⟩, ⟨.statusUpdate d.echoObj, none⟩, ⟨.getDummy req, none⟩] ++
            [⟨.update d.echoed.addObj, none⟩, ⟨.update d.echoed.added.removeObj, none⟩] :=
        passLog_of_log (by simp [Store.after_log])
      refine ⟨rfl, ⟨_, d.echoed.addObj, d.echoed.added.removeObj, hlog, by simp, hk, rfl, hk,
        filter_append_token hno2⟩, add_remove_store_facts hd2 hdel2 hno2, ?_⟩
      rw [hlog]
      simp [Call.podKey]

theorem Reconcile_add_then_remove_witness :
    findIn storeHeld.dummies keyX = some dummyHeld ∧
    dummyHeld.DeletionTimestamp.isSome = true ∧
    dummyFinalizer ∉ dummyHeld.Finalizers ∧
    (∀ ev ∈ passLog storeHeld (Reconcile reconcilerOK envOK keyX storeHeld).2,
      ev.err = none) ∧
    (Reconcile reconcilerOK envOK keyX storeHeld).1 = ({ Requeue := false }, none) ∧
    (findIn (Reconcile reconcilerOK envOK keyX storeHeld).2.dummies keyX).map
        (fun x => x.Finalizers) = some ["other/finalizer"] :=
  ⟨by decide, by decide, by decide, by decide,
    (Reconcile_add_then_remove reconcilerOK envOK keyX storeHeld dummyHeld
      (by decide) (by decide) (by decide) (by decide)).1,
    (Reconcile_add_then_remove reconcilerOK envOK keyX storeHeld dummyHeld
      (by decide) (by decide) (by decide) (by decide)).2.2.1⟩

end DummyController
